import Mathlib

/-!
Verification development for the session core of the chrome-devtools-debug-mcp
server. The TypeScript sources are shallowly embedded: each class becomes a
structure holding its fields, each method a function on that structure, and
the JavaScript Map is modelled as an insertion-ordered association list with
Map semantics (set updates in place, insertion order is preserved, delete
removes the entry). JavaScript truthiness tests on strings (if (s)) are
modelled as nonemptiness tests, matching the runtime semantics.
-/

/-! ### Insertion-ordered map, modelling the JavaScript Map class -/

/-- An insertion-ordered association list modelling a JavaScript Map. -/
abbrev JSMap (κ α : Type) : Type := List (κ × α)

namespace JSMap

variable {κ α : Type} [BEq κ]

/-- Map.get: find the value stored at a key. -/
def get? (m : JSMap κ α) (k : κ) : Option α :=
  match m with
  | [] => none
  | e :: t => if e.1 == k then some e.2 else get? t k

/-- Map.set: update the value in place if the key exists, else append. -/
def set (m : JSMap κ α) (k : κ) (v : α) : JSMap κ α :=
  if (get? m k).isSome then m.map (fun e => if e.1 == k then (e.1, v) else e)
  else m ++ [(k, v)]

/-- Map.delete: remove the entry with the key, if present. -/
def delete (m : JSMap κ α) (k : κ) : JSMap κ α :=
  match m with
  | [] => []
  | e :: t => if e.1 == k then t else e :: delete t k

/-- Map.size. -/
def size (m : JSMap κ α) : Nat := m.length

/-- Array.from of Map.values, in insertion order. -/
def values (m : JSMap κ α) : List α := m.map (·.2)

/-- Array.from of Map.keys, in insertion order. -/
def keysList (m : JSMap κ α) : List κ := m.map (·.1)

/-- Map.keys().next().value: the insertion-oldest key, if any. -/
def firstKey (m : JSMap κ α) : Option κ := (keysList m).head?

end JSMap

/-! ### Decimal rendering of natural numbers, modelling template interpolation -/

/-- Fuelled digit extraction, most significant digit first. The fuel only
drives the recursion; any fuel of at least n computes the digits of n. -/
def natDecimalAux : Nat → Nat → List Char
  | 0, _ => []
  | fuel + 1, n =>
      if n = 0 then []
      else natDecimalAux fuel (n / 10) ++ [Nat.digitChar (n % 10)]

/-- Decimal digit string of a natural number, most significant digit first,
modelling the JavaScript rendering of a nonnegative integer in a template
literal. -/
def natDecimal (n : Nat) : List Char :=
  if n = 0 then ['0'] else natDecimalAux n n

/-! ### Base64 encoding, modelling Buffer.toString with base64 -/

/-- The base64 alphabet. -/
def base64Alphabet : List Char :=
  [ 'A', 'B', 'C', 'D', 'E', 'F', 'G', 'H', 'I', 'J', 'K', 'L', 'M',
    'N', 'O', 'P', 'Q', 'R', 'S', 'T', 'U', 'V', 'W', 'X', 'Y', 'Z',
    'a', 'b', 'c', 'd', 'e', 'f', 'g', 'h', 'i', 'j', 'k', 'l', 'm',
    'n', 'o', 'p', 'q', 'r', 's', 't', 'u', 'v', 'w', 'x', 'y', 'z',
    '0', '1', '2', '3', '4', '5', '6', '7', '8', '9', '+', '/' ]

/-- Character for a 6-bit group. -/
def base64Char (i : Nat) : Char := base64Alphabet.getD (i % 64) '='

/-- Base64-encode a byte list (bytes as naturals below 256). -/
def base64EncodeBytes : List Nat → List Char
  | [] => []
  | [a] =>
      [base64Char (a / 4), base64Char (a % 4 * 16), '=', '=']
  | [a, b] =>
      [base64Char (a / 4), base64Char (a % 4 * 16 + b / 16),
       base64Char (b % 16 * 4), '=']
  | a :: b :: c :: rest =>
      base64Char (a / 4) :: base64Char (a % 4 * 16 + b / 16) ::
      base64Char (b % 16 * 4 + c / 64) :: base64Char (c % 64) ::
      base64EncodeBytes rest

/-- UTF-8 encoding of a single code point, as Node's Buffer.from performs. -/
def utf8EncodeCodePoint (n : Nat) : List Nat :=
  if n < 0x80 then [n]
  else if n < 0x800 then [0xC0 + n / 64, 0x80 + n % 64]
  else if n < 0x10000 then
    [0xE0 + n / 4096, 0x80 + n / 64 % 64, 0x80 + n % 64]
  else
    [0xF0 + n / 262144, 0x80 + n / 4096 % 64, 0x80 + n / 64 % 64, 0x80 + n % 64]

/-- UTF-8 bytes of a string. -/
def utf8Bytes (s : String) : List Nat :=
  s.data.flatMap (fun c => utf8EncodeCodePoint c.toNat)

/-- Model of Buffer.from(body).toString with base64: base64 of the UTF-8 bytes. -/
def base64EncodeString (s : String) : String :=
  String.mk (base64EncodeBytes (utf8Bytes s))

/-! ### Regular expressions and the glob-to-regex conversion

The three pattern utilities delegate regular-expression compilation and
matching to the host's RegExp class. That engine is embedded abstractly: a
RegexEngine gives a compile function returning none exactly when the RegExp
constructor would throw a SyntaxError, and otherwise the compiled matcher.
The glob-escaping passes are embedded concretely, character by character. -/

/-- Abstract model of the host regular-expression engine. compile returns
none exactly when the RegExp constructor throws, and otherwise the matcher
denoted by the source text. -/
structure RegexEngine where
  compile : String → Option (String → Bool)

/-- The single-character step of the three chained replace calls: regex
metacharacters are backslash-escaped, a star becomes dot-star, a question
mark becomes a dot. The passes commute into one map because escaping
touches neither star nor question mark and the inserted characters are
never rewritten by the later passes. -/
def globEscapeChar (c : Char) : List Char :=
  if c ∈ ['.', '+', '^', '$', '\x7b', '\x7d', '(', ')', '|', '[', ']', '\\'] then
    ['\\', c]
  else if c = '*' then ['.', '*']
  else if c = '?' then ['.']
  else [c]

/-- The body of the glob-to-regex source conversion shared by the three
pattern utilities. -/
def globEscape (pattern : String) : String :=
  String.mk (pattern.data.flatMap globEscapeChar)

/-- Test whether a pattern is of the regex form, written slash ... slash. -/
def slashWrapped (pattern : String) : Bool :=
  pattern.data.head? == some '/' && pattern.data.getLast? == some '/'

/-- JavaScript string falsiness: the empty string is the only falsy one. -/
def strFalsy (s : String) : Bool := s.data.isEmpty

/-- The text between the slashes: pattern.slice(1, -1). -/
def slashInner (pattern : String) : String :=
  String.mk (pattern.data.drop 1 |>.dropLast)

/-! ### Shared protocol types

CDP payloads are loosely typed JSON; following the spec's data-model section
each event family is embedded with the fields the projections actually
consume. A RemoteObject's value field carries the JavaScript string
rendering of the value, which is all the console projection reads from it. -/

/-- A resolved script location. -/
structure Location where
  scriptId : String
  lineNumber : Nat
  columnNumber : Option Nat := none
deriving DecidableEq, Repr

/-- A call frame delivered by a Debugger.paused event. -/
structure CallFrame where
  callFrameId : String
  functionName : String
deriving DecidableEq, Repr

/-- Script metadata delivered by Debugger.scriptParsed. -/
structure ScriptInfo where
  scriptId : String
  url : String
  startLine : Nat
  endLine : Nat
  isModule : Bool
deriving DecidableEq, Repr

/-- A name-value header pair as sent on the CDP wire. -/
structure HeaderEntry where
  name : String
  value : String
deriving DecidableEq, Repr

/-- Request fields consumed by the network and fetch projections. -/
structure RequestData where
  url : String
  method : String
  headers : JSMap String String := []
  postData : Option String := none
deriving DecidableEq, Repr

/-- Response fields consumed by the network projection. -/
structure ResponseData where
  url : String
  status : Nat
  statusText : String
  mimeType : String
deriving DecidableEq, Repr

/-- CDP resource types are carried as opaque strings. -/
abbrev ResourceType : Type := String

/-- A frame of a console stack trace. -/
structure StackFrame where
  url : String
  lineNumber : Nat
  columnNumber : Nat
deriving DecidableEq, Repr

/-- Stack trace attached to a console call. -/
structure StackTrace where
  callFrames : List StackFrame
deriving DecidableEq, Repr

/-- A runtime value as consumed by the console flattening: its type tag, the
string rendering of its value when one is attached, and its description. -/
structure RemoteObject where
  type : String
  value : Option String := none
  description : Option String := none
deriving DecidableEq, Repr

/-- Exception payloads are stored opaquely. -/
abbrev ExceptionDetails : Type := String

/-- Log entries are stored opaquely. -/
abbrev LogEntry : Type := String

/-- The payload of a Fetch.requestPaused event. -/
structure FetchRequestPaused where
  requestId : String
  request : RequestData
  resourceType : ResourceType
deriving DecidableEq, Repr

/-- Service-worker registration record. -/
structure SWRegistration where
  registrationId : String
  scopeURL : String
  isDeleted : Bool
deriving DecidableEq, Repr

/-- Service-worker version record. -/
structure SWVersion where
  versionId : String
  registrationId : String
deriving DecidableEq, Repr

/-! ### FetchInterceptor (state/FetchInterceptor.ts) -/

/-- The action attached to an intercept rule. -/
inductive InterceptAction
  | pause
  | modify
  | mock
  | fail
deriving DecidableEq, Repr

/-- The mock response attached to a rule with the mock action. -/
structure MockResponse where
  status : Nat
  headers : Option (JSMap String String) := none
  body : String
deriving DecidableEq, Repr

/-- A stored intercept rule. -/
structure InterceptRule where
  id : String
  pattern : String
  resourceTypes : Option (List ResourceType) := none
  action : InterceptAction
  modifyHeaders : Option (JSMap String String) := none
  modifyUrl : Option String := none
  mockResponse : Option MockResponse := none
  failReason : Option String := none
  enabled : Bool
deriving DecidableEq, Repr

/-- The argument of addRule: an InterceptRule without its id. -/
structure InterceptRuleInput where
  pattern : String
  resourceTypes : Option (List ResourceType) := none
  action : InterceptAction
  modifyHeaders : Option (JSMap String String) := none
  modifyUrl : Option String := none
  mockResponse : Option MockResponse := none
  failReason : Option String := none
  enabled : Bool
deriving DecidableEq, Repr

/-- The argument of updateRule: a partial InterceptRule without its id,
applied field by field by Object.assign. -/
structure InterceptRuleUpdates where
  pattern : Option String := none
  resourceTypes : Option (Option (List ResourceType)) := none
  action : Option InterceptAction := none
  modifyHeaders : Option (Option (JSMap String String)) := none
  modifyUrl : Option (Option String) := none
  mockResponse : Option (Option MockResponse) := none
  failReason : Option (Option String) := none
  enabled : Option Bool := none
deriving DecidableEq, Repr

/-- A request parked in the paused-request table. -/
structure PausedRequest where
  requestId : String
  url : String
  method : String
  resourceType : ResourceType
  headers : JSMap String String
  postData : Option String := none
  timestamp : Nat
  matchedRule : Option InterceptRule := none
deriving DecidableEq, Repr

/-- The FetchInterceptor projection state. -/
structure FetchInterceptor where
  rules : JSMap String InterceptRule := []
  pausedRequests : JSMap String PausedRequest := []
  enabled : Bool := false
  ruleIdCounter : Nat := 0
deriving DecidableEq, Repr

namespace FetchInterceptor

/-- A freshly constructed FetchInterceptor. -/
def init : FetchInterceptor := {}

/-- setEnabled: record the flag; when disabling, clear the paused table. -/
def setEnabled (s : FetchInterceptor) (enabled : Bool) : FetchInterceptor :=
  let s := { s with enabled := enabled }
  if !enabled then { s with pausedRequests := [] } else s

/-- isEnabled. -/
def isEnabled (s : FetchInterceptor) : Bool := s.enabled

/-- The rule-id string for a counter value, rule-N. -/
def mkRuleId (n : Nat) : String :=
  String.mk ("rule-".data ++ natDecimal n)

/-- addRule: pre-increment the counter, build the id, store, return the id. -/
def addRule (s : FetchInterceptor) (rule : InterceptRuleInput) :
    String × FetchInterceptor :=
  let n := s.ruleIdCounter + 1
  let id := mkRuleId n
  let stored : InterceptRule :=
    { id := id, pattern := rule.pattern, resourceTypes := rule.resourceTypes,
      action := rule.action, modifyHeaders := rule.modifyHeaders,
      modifyUrl := rule.modifyUrl, mockResponse := rule.mockResponse,
      failReason := rule.failReason, enabled := rule.enabled }
  (id, { s with ruleIdCounter := n, rules := JSMap.set s.rules id stored })

/-- removeRule: delete and report whether the rule existed. -/
def removeRule (s : FetchInterceptor) (ruleId : String) :
    Bool × FetchInterceptor :=
  ((JSMap.get? s.rules ruleId).isSome,
   { s with rules := JSMap.delete s.rules ruleId })

/-- getRule. -/
def getRule (s : FetchInterceptor) (ruleId : String) : Option InterceptRule :=
  JSMap.get? s.rules ruleId

/-- getAllRules: the stored rules in insertion order. -/
def getAllRules (s : FetchInterceptor) : List InterceptRule :=
  JSMap.values s.rules

/-- Object.assign of partial updates onto a stored rule. -/
def applyUpdates (rule : InterceptRule) (u : InterceptRuleUpdates) :
    InterceptRule :=
  { rule with
    pattern := u.pattern.getD rule.pattern,
    resourceTypes := u.resourceTypes.getD rule.resourceTypes,
    action := u.action.getD rule.action,
    modifyHeaders := u.modifyHeaders.getD rule.modifyHeaders,
    modifyUrl := u.modifyUrl.getD rule.modifyUrl,
    mockResponse := u.mockResponse.getD rule.mockResponse,
    failReason := u.failReason.getD rule.failReason,
    enabled := u.enabled.getD rule.enabled }

/-- updateRule: patch the stored rule in place; false when absent. -/
def updateRule (s : FetchInterceptor) (ruleId : String)
    (updates : InterceptRuleUpdates) : Bool × FetchInterceptor :=
  match JSMap.get? s.rules ruleId with
  | none => (false, s)
  | some rule =>
      (true, { s with rules := JSMap.set s.rules ruleId (applyUpdates rule updates) })

/-- enableRule: flip the enabled flag of a stored rule; false when absent. -/
def enableRule (s : FetchInterceptor) (ruleId : String) (enabled : Bool) :
    Bool × FetchInterceptor :=
  match JSMap.get? s.rules ruleId with
  | none => (false, s)
  | some rule =>
      (true, { s with rules := JSMap.set s.rules ruleId { rule with enabled := enabled } })

/-- clearRules: empty the rule map (the counter is untouched). -/
def clearRules (s : FetchInterceptor) : FetchInterceptor :=
  { s with rules := [] }

/-- matchesPattern: star matches everything; a slash-wrapped pattern is
compiled as a regex inside a try block whose catch returns false; anything
else goes through the anchored glob conversion, outside any try block, so a
compile failure there would propagate as an exception. -/
def matchesPattern (E : RegexEngine) (url pattern : String) :
    Except String Bool :=
  if pattern = "*" then Except.ok true
  else if slashWrapped pattern then
    match E.compile (slashInner pattern) with
    | some test => Except.ok (test url)
    | none => Except.ok false
  else
    match E.compile ("^" ++ globEscape pattern ++ "$") with
    | some test => Except.ok (test url)
    | none => Except.error "SyntaxError"

/-- findMatchingRule: first enabled rule, in insertion order, whose resource
filter admits the type and whose pattern matches the URL. -/
def findMatchingRule (E : RegexEngine) (s : FetchInterceptor)
    (url : String) (resourceType : ResourceType) :
    Except String (Option InterceptRule) :=
  go (JSMap.values s.rules)
where
  go : List InterceptRule → Except String (Option InterceptRule)
    | [] => Except.ok none
    | rule :: rest =>
        if !rule.enabled then go rest
        else if (match rule.resourceTypes with
                 | some types => !types.isEmpty && !types.contains resourceType
                 | none => false) then go rest
        else do
          let m ← matchesPattern E url rule.pattern
          if m then Except.ok (some rule) else go rest

/-- onRequestPaused: snapshot the request, compute the matched rule, insert
into the paused table, return the snapshot. The timestamp argument stands
for Date.now(). An exception escaping findMatchingRule would propagate
before any mutation. -/
def onRequestPaused (E : RegexEngine) (s : FetchInterceptor)
    (event : FetchRequestPaused) (now : Nat) :
    Except String (PausedRequest × FetchInterceptor) := do
  let matched ← findMatchingRule E s event.request.url event.resourceType
  let pausedReq : PausedRequest :=
    { requestId := event.requestId, url := event.request.url,
      method := event.request.method, resourceType := event.resourceType,
      headers := event.request.headers, postData := event.request.postData,
      timestamp := now, matchedRule := matched }
  Except.ok (pausedReq,
    { s with pausedRequests := JSMap.set s.pausedRequests event.requestId pausedReq })

/-- getPausedRequest. -/
def getPausedRequest (s : FetchInterceptor) (requestId : String) :
    Option PausedRequest :=
  JSMap.get? s.pausedRequests requestId

/-- getAllPausedRequests, in insertion order. -/
def getAllPausedRequests (s : FetchInterceptor) : List PausedRequest :=
  JSMap.values s.pausedRequests

/-- removePausedRequest. -/
def removePausedRequest (s : FetchInterceptor) (requestId : String) :
    FetchInterceptor :=
  { s with pausedRequests := JSMap.delete s.pausedRequests requestId }

/-- clearPausedRequests. -/
def clearPausedRequests (s : FetchInterceptor) : FetchInterceptor :=
  { s with pausedRequests := [] }

/-- A CDP interception pattern entry. -/
structure CDPPattern where
  urlPattern : String
  resourceType : Option ResourceType := none
  requestStage : String
deriving DecidableEq, Repr

/-- getCDPPatterns: fan every enabled rule out to one pattern per resource
type (or a single untyped pattern), deduplicated by pattern-and-type key. -/
def getCDPPatterns (s : FetchInterceptor) : List CDPPattern :=
  (go (JSMap.values s.rules) []).2
where
  addOne (seen : List String) (out : List CDPPattern) (key : String)
      (p : CDPPattern) : List String × List CDPPattern :=
    if seen.contains key then (seen, out) else (seen ++ [key], out ++ [p])
  goTypes (pattern : String) (seen : List String) (out : List CDPPattern) :
      List ResourceType → List String × List CDPPattern
    | [] => (seen, out)
    | t :: ts =>
        let (seen, out) := addOne seen out (pattern ++ ":" ++ t)
          { urlPattern := pattern, resourceType := some t, requestStage := "Request" }
        goTypes pattern seen out ts
  go : List InterceptRule → List String → List String × List CDPPattern
    | [], seen => (seen, [])
    | rule :: rest, seen =>
        if !rule.enabled then go rest seen
        else
          let (seen, out) :=
            match rule.resourceTypes with
            | some types =>
                if !types.isEmpty then goTypes rule.pattern seen [] types
                else addOne seen [] rule.pattern
                  { urlPattern := rule.pattern, requestStage := "Request" }
            | none => addOne seen [] rule.pattern
                { urlPattern := rule.pattern, requestStage := "Request" }
          let (seen2, later) := go rest seen
          (seen2, out ++ later)

/-- encodeResponseBody: Buffer base64 of the body text. -/
def encodeResponseBody (body : String) : String := base64EncodeString body

/-- reset: clear rules, paused table and the id counter. -/
def reset (s : FetchInterceptor) : FetchInterceptor :=
  { s with rules := [], pausedRequests := [], ruleIdCounter := 0 }

/-- The summary record returned by getSummary. -/
structure Summary where
  ruleCount : Nat
  enabledRules : Nat
  pausedRequests : Nat
deriving DecidableEq, Repr

/-- getSummary: rule count, enabled-rule count, paused-request count. -/
def getSummary (s : FetchInterceptor) : Summary :=
  { ruleCount := JSMap.size s.rules,
    enabledRules := (JSMap.values s.rules).countP (·.enabled),
    pausedRequests := JSMap.size s.pausedRequests }

end FetchInterceptor

/-! ### ScriptRegistry (state/ScriptRegistry.ts) -/

/-- The ScriptRegistry projection state. -/
structure ScriptRegistry where
  scripts : JSMap String ScriptInfo := []
  urlToScriptIds : JSMap String (List String) := []
  sourceCache : JSMap String String := []
deriving DecidableEq, Repr

namespace ScriptRegistry

/-- A freshly constructed ScriptRegistry. -/
def init : ScriptRegistry := {}

/-- addScript: store by scriptId; when the url is truthy (nonempty), add the
id to the url index set. -/
def addScript (s : ScriptRegistry) (script : ScriptInfo) : ScriptRegistry :=
  let s := { s with scripts := JSMap.set s.scripts script.scriptId script }
  if strFalsy script.url then s
  else
    let ids := (JSMap.get? s.urlToScriptIds script.url).getD []
    let ids := if ids.contains script.scriptId then ids else ids ++ [script.scriptId]
    { s with urlToScriptIds := JSMap.set s.urlToScriptIds script.url ids }

/-- getScript. -/
def getScript (s : ScriptRegistry) (scriptId : String) : Option ScriptInfo :=
  JSMap.get? s.scripts scriptId

/-- getScriptsByUrl: resolve the url index through the script map. -/
def getScriptsByUrl (s : ScriptRegistry) (url : String) : List ScriptInfo :=
  match JSMap.get? s.urlToScriptIds url with
  | none => []
  | some ids => ids.filterMap (fun id => JSMap.get? s.scripts id)

/-- patternToRegex: slash-wrapped input compiles as a regex with no
surrounding try block, so a compile failure propagates; otherwise the
anchored glob conversion applies. The result is the matcher. -/
def patternToRegex (E : RegexEngine) (pattern : String) :
    Except String (String → Bool) :=
  if slashWrapped pattern then
    match E.compile (slashInner pattern) with
    | some test => Except.ok test
    | none => Except.error "SyntaxError"
  else
    match E.compile ("^" ++ globEscape pattern ++ "$") with
    | some test => Except.ok test
    | none => Except.error "SyntaxError"

/-- findScriptsByUrlPattern: all scripts with a truthy url matched by the
compiled pattern. -/
def findScriptsByUrlPattern (E : RegexEngine) (s : ScriptRegistry)
    (pattern : String) : Except String (List ScriptInfo) := do
  let test ← patternToRegex E pattern
  Except.ok ((JSMap.values s.scripts).filter
    (fun script => !(strFalsy script.url) && test script.url))

/-- getAllScripts. -/
def getAllScripts (s : ScriptRegistry) : List ScriptInfo :=
  JSMap.values s.scripts

/-- getScriptCount. -/
def getScriptCount (s : ScriptRegistry) : Nat := JSMap.size s.scripts

/-- setSource. -/
def setSource (s : ScriptRegistry) (scriptId source : String) : ScriptRegistry :=
  { s with sourceCache := JSMap.set s.sourceCache scriptId source }

/-- getSource. -/
def getSource (s : ScriptRegistry) (scriptId : String) : Option String :=
  JSMap.get? s.sourceCache scriptId

/-- matchesUrl: compile the pattern (propagating a compile failure) and test
the url. -/
def matchesUrl (E : RegexEngine) (url pattern : String) : Except String Bool := do
  let test ← patternToRegex E pattern
  Except.ok (test url)

/-- clear. -/
def clear (_s : ScriptRegistry) : ScriptRegistry := {}

end ScriptRegistry

/-! ### NetworkState (state/NetworkState.ts) -/

/-- A collected per-request record. -/
structure CollectedRequest where
  requestId : String
  url : String
  method : String
  resourceType : ResourceType
  status : Option Nat := none
  statusText : Option String := none
  mimeType : Option String := none
  startTime : Nat
  endTime : Option Nat := none
  duration : Option Int := none
  encodedDataLength : Option Nat := none
  request : RequestData
  response : Option ResponseData := none
  failed : Option Bool := none
  errorText : Option String := none
  canceled : Option Bool := none
  responseBody : Option String := none
  responseBodyBase64 : Option Bool := none
deriving DecidableEq, Repr

/-- The NetworkState projection state. -/
structure NetworkState where
  requests : JSMap String CollectedRequest := []
  enabled : Bool := false
  maxRequests : Nat := 1000
deriving DecidableEq, Repr

/-- The parameter record of a Network.requestWillBeSent event. -/
structure RequestWillBeSentParams where
  requestId : String
  loaderId : String
  documentURL : String
  request : RequestData
  timestamp : Nat
  wallTime : Nat
  type : ResourceType
deriving DecidableEq, Repr

namespace NetworkState

/-- A freshly constructed NetworkState. -/
def init : NetworkState := {}

/-- setEnabled: record the flag; when disabling, clear the table. -/
def setEnabled (s : NetworkState) (enabled : Bool) : NetworkState :=
  let s := { s with enabled := enabled }
  if !enabled then { s with requests := [] } else s

/-- isEnabled. -/
def isEnabled (s : NetworkState) : Bool := s.enabled

/-- onRequestWillBeSent: when the table has reached maxRequests, look up the
insertion-oldest key and delete it if that key is truthy (the empty-string
key is falsy in JavaScript and is then not deleted); then insert the new
record. -/
def onRequestWillBeSent (s : NetworkState) (params : RequestWillBeSentParams) :
    NetworkState :=
  let requests :=
    if JSMap.size s.requests ≥ s.maxRequests then
      match JSMap.firstKey s.requests with
      | some oldestKey =>
          if strFalsy oldestKey then s.requests
          else JSMap.delete s.requests oldestKey
      | none => s.requests
    else s.requests
  let record : CollectedRequest :=
    { requestId := params.requestId, url := params.request.url,
      method := params.request.method, resourceType := params.type,
      startTime := params.timestamp, request := params.request }
  { s with requests := JSMap.set requests params.requestId record }

/-- onResponseReceived: patch status, statusText, mimeType and response. -/
def onResponseReceived (s : NetworkState)
    (requestId : String) (response : ResponseData) : NetworkState :=
  match JSMap.get? s.requests requestId with
  | none => s
  | some req =>
      let req :=
        { req with
          status := some response.status,
          statusText := some response.statusText,
          mimeType := some response.mimeType,
          response := some response }
      { s with requests := JSMap.set s.requests requestId req }

/-- onLoadingFinished: set endTime, duration and encodedDataLength. -/
def onLoadingFinished (s : NetworkState)
    (requestId : String) (timestamp : Nat) (encodedDataLength : Nat) :
    NetworkState :=
  match JSMap.get? s.requests requestId with
  | none => s
  | some req =>
      let req :=
        { req with
          endTime := some timestamp,
          duration := some ((timestamp : Int) - (req.startTime : Int)),
          encodedDataLength := some encodedDataLength }
      { s with requests := JSMap.set s.requests requestId req }

/-- onLoadingFailed: set endTime, duration, failed, errorText, canceled. -/
def onLoadingFailed (s : NetworkState)
    (requestId : String) (timestamp : Nat) (errorText : String)
    (canceled : Option Bool) : NetworkState :=
  match JSMap.get? s.requests requestId with
  | none => s
  | some req =>
      let req :=
        { req with
          endTime := some timestamp,
          duration := some ((timestamp : Int) - (req.startTime : Int)),
          failed := some true,
          errorText := some errorText,
          canceled := canceled }
      { s with requests := JSMap.set s.requests requestId req }

/-- setResponseBody. -/
def setResponseBody (s : NetworkState)
    (requestId body : String) (base64Encoded : Bool) : NetworkState :=
  match JSMap.get? s.requests requestId with
  | none => s
  | some req =>
      let req :=
        { req with
          responseBody := some body,
          responseBodyBase64 := some base64Encoded }
      { s with requests := JSMap.set s.requests requestId req }

/-- getRequest. -/
def getRequest (s : NetworkState) (requestId : String) :
    Option CollectedRequest :=
  JSMap.get? s.requests requestId

/-- getAllRequests, in insertion order. -/
def getAllRequests (s : NetworkState) : List CollectedRequest :=
  JSMap.values s.requests

/-- patternToRegex: the same conversion as the other projections but
unanchored, and again with no try block around the slash-wrapped branch. -/
def patternToRegex (E : RegexEngine) (pattern : String) :
    Except String (String → Bool) :=
  if slashWrapped pattern then
    match E.compile (slashInner pattern) with
    | some test => Except.ok test
    | none => Except.error "SyntaxError"
  else
    match E.compile (globEscape pattern) with
    | some test => Except.ok test
    | none => Except.error "SyntaxError"

/-- getRequestsByUrl: filter all requests by the compiled pattern,
propagating a compile failure. -/
def getRequestsByUrl (E : RegexEngine) (s : NetworkState) (urlPattern : String) :
    Except String (List CollectedRequest) := do
  let test ← patternToRegex E urlPattern
  Except.ok ((getAllRequests s).filter (fun r => test r.url))

/-- getRequestsByType. -/
def getRequestsByType (s : NetworkState) (type : ResourceType) :
    List CollectedRequest :=
  (getAllRequests s).filter (fun r => r.resourceType == type)

/-- getFailedRequests. -/
def getFailedRequests (s : NetworkState) : List CollectedRequest :=
  (getAllRequests s).filter (fun r => r.failed.getD false)

/-- getPendingRequests: no endTime and not failed. -/
def getPendingRequests (s : NetworkState) : List CollectedRequest :=
  (getAllRequests s).filter (fun r => r.endTime.isNone && !(r.failed.getD false))

/-- clear. -/
def clear (s : NetworkState) : NetworkState := { s with requests := [] }

/-- getCount. -/
def getCount (s : NetworkState) : Nat := JSMap.size s.requests

/-- setMaxRequests. -/
def setMaxRequests (s : NetworkState) (max : Nat) : NetworkState :=
  { s with maxRequests := max }

/-- The summary record returned by getSummary. -/
structure Summary where
  total : Nat
  completed : Nat
  failed : Nat
  pending : Nat
deriving DecidableEq, Repr

/-- getSummary: failed beats completed beats pending, counted per record. -/
def getSummary (s : NetworkState) : Summary :=
  { total := JSMap.size s.requests,
    completed := (getAllRequests s).countP
      (fun r => !(r.failed.getD false) && r.endTime.isSome),
    failed := (getAllRequests s).countP (fun r => r.failed.getD false),
    pending := (getAllRequests s).countP
      (fun r => !(r.failed.getD false) && r.endTime.isNone) }

end NetworkState

/-! ### ConsoleState (state/ConsoleState.ts) -/

/-- A collected console message. -/
structure CollectedConsoleMessage where
  id : Nat
  type : String
  level : String
  text : String
  args : List RemoteObject := []
  url : Option String := none
  line : Option Nat := none
  column : Option Nat := none
  stackTrace : Option StackTrace := none
  timestamp : Nat
  executionContextId : Option Nat := none
deriving DecidableEq, Repr

/-- A collected exception. -/
structure CollectedException where
  id : Nat
  timestamp : Nat
  details : ExceptionDetails
deriving DecidableEq, Repr

/-- The ConsoleState projection state. -/
structure ConsoleState where
  messages : List CollectedConsoleMessage := []
  exceptions : List CollectedException := []
  enabled : Bool := false
  maxMessages : Nat := 1000
  messageIdCounter : Nat := 0
  exceptionIdCounter : Nat := 0
deriving DecidableEq, Repr

/-- The parameter record of a Runtime.consoleAPICalled event. -/
structure ConsoleAPICalledParams where
  type : String
  args : List RemoteObject
  executionContextId : Nat
  timestamp : Nat
  stackTrace : Option StackTrace := none
deriving DecidableEq, Repr

namespace ConsoleState

/-- A freshly constructed ConsoleState. -/
def init : ConsoleState := {}

/-- clear. -/
def clear (s : ConsoleState) : ConsoleState :=
  { s with messages := [], exceptions := [] }

/-- setEnabled: record the flag; when disabling, clear everything. -/
def setEnabled (s : ConsoleState) (enabled : Bool) : ConsoleState :=
  let s := { s with enabled := enabled }
  if !enabled then clear s else s

/-- isEnabled. -/
def isEnabled (s : ConsoleState) : Bool := s.enabled

/-- typeToLevel: derive a level from the console call type. -/
def typeToLevel (type : String) : String :=
  if type = "error" ∨ type = "assert" then "error"
  else if type = "warning" ∨ type = "warn" then "warning"
  else if type = "info" then "info"
  else if type = "debug" ∨ type = "trace" then "debug"
  else "log"

/-- Flatten one argument to text: a string value verbatim, the undefined
type as the word undefined, any attached value by its string rendering,
else the description, else the bracketed type tag. -/
def renderArg (arg : RemoteObject) : String :=
  if arg.type = "string" then (arg.value.getD "")
  else if arg.type = "undefined" then "undefined"
  else match arg.value with
    | some v => v
    | none => match arg.description with
      | some d => d
      | none => "[" ++ arg.type ++ "]"

/-- addMessage: drop the oldest when at capacity, then push. -/
def addMessage (s : ConsoleState) (msg : CollectedConsoleMessage) :
    ConsoleState :=
  let messages :=
    if s.messages.length ≥ s.maxMessages then s.messages.tail else s.messages
  { s with messages := messages ++ [msg] }

/-- addException: drop the oldest when at capacity, then push. -/
def addException (s : ConsoleState) (exc : CollectedException) : ConsoleState :=
  let exceptions :=
    if s.exceptions.length ≥ s.maxMessages then s.exceptions.tail
    else s.exceptions
  { s with exceptions := exceptions ++ [exc] }

/-- onConsoleAPICalled: flatten arguments to text joined by spaces, assign
the next message id, extract the location from the first stack frame. -/
def onConsoleAPICalled (s : ConsoleState) (params : ConsoleAPICalledParams) :
    CollectedConsoleMessage × ConsoleState :=
  let text := String.intercalate " " (params.args.map renderArg)
  let msg : CollectedConsoleMessage :=
    { id := s.messageIdCounter + 1, type := params.type,
      level := typeToLevel params.type, text := text, args := params.args,
      stackTrace := params.stackTrace, timestamp := params.timestamp,
      executionContextId := some params.executionContextId }
  let msg :=
    match params.stackTrace with
    | some st =>
        match st.callFrames.head? with
        | some frame =>
            { msg with
              url := some frame.url,
              line := some frame.lineNumber,
              column := some frame.columnNumber }
        | none => msg
    | none => msg
  (msg, addMessage { s with messageIdCounter := s.messageIdCounter + 1 } msg)

/-- onExceptionThrown: store the exception with the next exception id. -/
def onExceptionThrown (s : ConsoleState)
    (timestamp : Nat) (exceptionDetails : ExceptionDetails) :
    CollectedException × ConsoleState :=
  let exc : CollectedException :=
    { id := s.exceptionIdCounter + 1, timestamp := timestamp,
      details := exceptionDetails }
  (exc, addException { s with exceptionIdCounter := s.exceptionIdCounter + 1 } exc)

/-- getMessages (a defensive copy in the source). -/
def getMessages (s : ConsoleState) : List CollectedConsoleMessage := s.messages

/-- getMessagesByLevel. -/
def getMessagesByLevel (s : ConsoleState) (level : String) :
    List CollectedConsoleMessage :=
  s.messages.filter (fun m => m.level == level)

/-- getExceptions (a defensive copy in the source). -/
def getExceptions (s : ConsoleState) : List CollectedException := s.exceptions

/-- getMessageCount. -/
def getMessageCount (s : ConsoleState) : Nat := s.messages.length

/-- getExceptionCount. -/
def getExceptionCount (s : ConsoleState) : Nat := s.exceptions.length

end ConsoleState

/-! ### DebugState (state/DebugState.ts) -/

/-- The pause state record. -/
structure PauseState where
  isPaused : Bool
  reason : Option String := none
  callFrames : Option (List CallFrame) := none
  hitBreakpoints : Option (List String) := none
deriving DecidableEq, Repr

/-- A managed breakpoint. -/
structure ManagedBreakpoint where
  id : String
  url : Option String := none
  urlRegex : Option String := none
  scriptId : Option String := none
  lineNumber : Nat
  columnNumber : Option Nat := none
  condition : Option String := none
  locations : List Location
  enabled : Bool
deriving DecidableEq, Repr

/-- The pause-on-exceptions mode. -/
inductive PauseOnExceptionsState
  | none
  | uncaught
  | all
deriving DecidableEq, Repr

/-- The DebugState projection state. -/
structure DebugState where
  pauseState : PauseState := { isPaused := false }
  breakpoints : JSMap String ManagedBreakpoint := []
  pauseOnExceptions : PauseOnExceptionsState := .none
  enabled : Bool := false
  asyncStackTraceDepth : Nat := 0
  lastException : Option ExceptionDetails := none
deriving DecidableEq, Repr

namespace DebugState

/-- A freshly constructed DebugState. -/
def init : DebugState := {}

/-- setPaused: overwrite the whole pause state. -/
def setPaused (s : DebugState) (reason : String) (callFrames : List CallFrame)
    (hitBreakpoints : Option (List String)) : DebugState :=
  { s with pauseState :=
      { isPaused := true, reason := some reason,
        callFrames := some callFrames, hitBreakpoints := hitBreakpoints } }

/-- setResumed: reset the pause state to running. -/
def setResumed (s : DebugState) : DebugState :=
  { s with pauseState := { isPaused := false } }

/-- getPauseState (a defensive copy in the source). -/
def getPauseState (s : DebugState) : PauseState := s.pauseState

/-- isPaused. -/
def isPaused (s : DebugState) : Bool := s.pauseState.isPaused

/-- getCallFrames: the stored frames, or empty when running. -/
def getCallFrames (s : DebugState) : List CallFrame :=
  (s.pauseState.callFrames).getD []

/-- addBreakpoint. -/
def addBreakpoint (s : DebugState) (breakpoint : ManagedBreakpoint) :
    DebugState :=
  { s with breakpoints := JSMap.set s.breakpoints breakpoint.id breakpoint }

/-- removeBreakpoint: delete and report whether it existed. -/
def removeBreakpoint (s : DebugState) (breakpointId : String) :
    Bool × DebugState :=
  ((JSMap.get? s.breakpoints breakpointId).isSome,
   { s with breakpoints := JSMap.delete s.breakpoints breakpointId })

/-- getBreakpoint. -/
def getBreakpoint (s : DebugState) (breakpointId : String) :
    Option ManagedBreakpoint :=
  JSMap.get? s.breakpoints breakpointId

/-- getAllBreakpoints. -/
def getAllBreakpoints (s : DebugState) : List ManagedBreakpoint :=
  JSMap.values s.breakpoints

/-- updateBreakpointLocations: overwrite the stored locations array of the
named breakpoint with the given one, when the breakpoint exists. -/
def updateBreakpointLocations (s : DebugState) (breakpointId : String)
    (locations : List Location) : DebugState :=
  match JSMap.get? s.breakpoints breakpointId with
  | Option.none => s
  | some bp =>
      { s with breakpoints :=
          JSMap.set s.breakpoints breakpointId { bp with locations := locations } }

/-- clearBreakpoints. -/
def clearBreakpoints (s : DebugState) : DebugState :=
  { s with breakpoints := [] }

/-- setPauseOnExceptions. -/
def setPauseOnExceptions (s : DebugState) (state : PauseOnExceptionsState) :
    DebugState :=
  { s with pauseOnExceptions := state }

/-- setAsyncStackTraceDepth. -/
def setAsyncStackTraceDepth (s : DebugState) (depth : Nat) : DebugState :=
  { s with asyncStackTraceDepth := depth }

/-- reset: running, no breakpoints, defaults everywhere except the enabled
flag. -/
def reset (s : DebugState) : DebugState :=
  { s with
    pauseState := { isPaused := false },
    breakpoints := [],
    pauseOnExceptions := .none,
    asyncStackTraceDepth := 0,
    lastException := Option.none }

/-- setEnabled: record the flag; when disabling, reset. -/
def setEnabled (s : DebugState) (enabled : Bool) : DebugState :=
  let s := { s with enabled := enabled }
  if !enabled then reset s else s

/-- isEnabled. -/
def isEnabled (s : DebugState) : Bool := s.enabled

end DebugState

/-! ### CDPClient (cdp-client.ts)

The transport is embedded as a transition system. The client state holds
the request-id counter, the pending-request table (id to method, standing
for the stored resolve/reject/timer slot) and the wire log of sent frames.
The inbound side is driven by transport events: an inbound response frame,
the firing of the per-request timer, and the socket close. Each step
returns the successor state together with the list of settlements it
performs, each tagged with the way the pending slot was freed. A timer for
an id is cleared exactly when that id leaves the table (clearTimeout in
handleResponse, the self-firing in the timeout callback, and clearTimeout
in rejectAllPending), so a timer-fire event can have an effect exactly
while its id is pending; on an id that is no longer pending it is a no-op,
which the model expresses by guarding on the table. -/

/-- The parameter payloads of the CDP commands this embedding models. -/
inductive CDPParams
  | evaluateP (expression : String)
  | continueP (requestId : String) (url : Option String) (method : Option String)
      (postData : Option String) (headers : Option (List HeaderEntry))
  | fulfillP (requestId : String) (responseCode : Nat)
      (responseHeaders : Option (List HeaderEntry)) (body : Option String)
      (responsePhrase : Option String)
  | failP (requestId : String) (errorReason : String)
  | fetchEnableP (patterns : List FetchInterceptor.CDPPattern)
  | noParams
deriving DecidableEq, Repr

/-- A frame written to the wire: assigned id, method and parameters. -/
structure SentFrame where
  id : Nat
  method : String
  params : CDPParams
deriving DecidableEq, Repr

/-- The transport state. -/
structure ClientState where
  requestId : Nat := 0
  pendingRequests : JSMap Nat String := []
  connected : Bool := false
  sentFrames : List SentFrame := []
deriving DecidableEq, Repr

/-- How a pending slot was freed. -/
inductive Outcome
  | response
  | protocolError
  | timeout
  | disconnectError
deriving DecidableEq, Repr

/-- The inbound transport events subsequent to a send: a response frame for
an id (carrying an error field or a result), the firing of a request
timer, and the socket close. -/
inductive TransportEvent
  | inboundResponse (id : Nat) (isError : Bool)
  | timerFire (id : Nat)
  | disconnect
deriving DecidableEq, Repr

namespace CDPClient

/-- send: throw when not connected; otherwise pre-increment the id counter,
write one frame, register the pending slot and schedule its timer. -/
def send (c : ClientState) (method : String) (params : CDPParams) :
    Except String (ClientState × Nat) :=
  if !c.connected then Except.error "Not connected"
  else
    let id := c.requestId + 1
    Except.ok
      ({ c with
         requestId := id,
         pendingRequests := JSMap.set c.pendingRequests id method,
         sentFrames := c.sentFrames ++ [{ id := id, method := method, params := params }] },
       id)

/-- handleResponse: look up the pending slot; an unknown id is logged and
dropped; a known id is freed (timer cleared, entry deleted) and settled as
a protocol error or a delivered response. -/
def handleResponse (c : ClientState) (id : Nat) (isError : Bool) :
    ClientState × List (Nat × Outcome) :=
  match JSMap.get? c.pendingRequests id with
  | none => (c, [])
  | some _ =>
      ({ c with pendingRequests := JSMap.delete c.pendingRequests id },
       [(id, if isError then Outcome.protocolError else Outcome.response)])

/-- The timeout callback: delete the slot and settle with a timeout error.
Its timer is alive exactly while the id is pending, so on a non-pending id
the event is a no-op. -/
def timerFired (c : ClientState) (id : Nat) :
    ClientState × List (Nat × Outcome) :=
  match JSMap.get? c.pendingRequests id with
  | none => (c, [])
  | some _ =>
      ({ c with pendingRequests := JSMap.delete c.pendingRequests id },
       [(id, Outcome.timeout)])

/-- rejectAllPending on socket close: clear every timer, settle every
pending slot with the connection-closed error, clear the table. -/
def onClose (c : ClientState) : ClientState × List (Nat × Outcome) :=
  ({ c with connected := false, pendingRequests := [] },
   (JSMap.keysList c.pendingRequests).map (fun id => (id, Outcome.disconnectError)))

/-- One inbound transport step. -/
def step (c : ClientState) (e : TransportEvent) :
    ClientState × List (Nat × Outcome) :=
  match e with
  | .inboundResponse id isError => handleResponse c id isError
  | .timerFire id => timerFired c id
  | .disconnect => onClose c

/-- Run a sequence of inbound transport events, accumulating settlements. -/
def run (c : ClientState) : List TransportEvent → ClientState × List (Nat × Outcome)
  | [] => (c, [])
  | e :: es =>
      let (c1, out1) := step c e
      let (c2, out2) := run c1 es
      (c2, out1 ++ out2)

/-- The settlements a log records for one request id. -/
def outcomesFor (id : Nat) (log : List (Nat × Outcome)) : List Outcome :=
  (log.filter (fun p => p.1 == id)).map (·.2)

/-- Whether an event can settle the given id: a response frame for it, its
timer firing, or the socket closing. -/
def relevantTo (id : Nat) : TransportEvent → Bool
  | .inboundResponse i _ => i == id
  | .timerFire i => i == id
  | .disconnect => true

end CDPClient

/-! ### DebugSession facade (DebugSession.ts) -/

/-- The facade state: the transport plus the five projections and the
remaining session-owned containers. -/
structure SessionState where
  client : ClientState := {}
  debugState : DebugState := {}
  scriptRegistry : ScriptRegistry := {}
  networkState : NetworkState := {}
  fetchInterceptor : FetchInterceptor := {}
  consoleState : ConsoleState := {}
  logEntries : List LogEntry := []
  serviceWorkerRegistrations : JSMap String SWRegistration := []
  serviceWorkerVersions : JSMap String SWVersion := []
  documentNodeId : Option Nat := none
deriving DecidableEq, Repr

/-- The CDP events dispatched by setupEventHandlers, with the payload
fields the handlers consume. The timestamp on the fetch pause stands for
Date.now(). -/
inductive CDPEvent
  | scriptParsed (params : ScriptInfo)
  | pausedEv (reason : String) (callFrames : List CallFrame)
      (hitBreakpoints : Option (List String))
  | resumedEv
  | breakpointResolved (breakpointId : String) (location : Location)
  | consoleAPICalled (params : ConsoleAPICalledParams)
  | exceptionThrown (timestamp : Nat) (details : ExceptionDetails)
  | requestWillBeSent (params : RequestWillBeSentParams)
  | responseReceived (requestId : String) (response : ResponseData)
  | loadingFinished (requestId : String) (timestamp encodedDataLength : Nat)
  | loadingFailed (requestId : String) (timestamp : Nat) (errorText : String)
      (canceled : Option Bool)
  | fetchRequestPaused (event : FetchRequestPaused) (now : Nat)
  | logEntryAdded (entry : LogEntry)
  | workerRegistrationUpdated (registrations : List SWRegistration)
  | workerVersionUpdated (versions : List SWVersion)
  | documentUpdated
deriving Repr

/-- Session-level errors of the facade paths this embedding covers. The
paused error carries the pause reason, as the PausedError constructor
does. -/
inductive SessionError
  | pausedError (reason : Option String)
  | notConnected
deriving DecidableEq, Repr

namespace DebugSession

/-- setupEventHandlers: route one inbound CDP event to its projection. The
fetch pause handler computes the matched rule through the regex engine; an
exception escaping it would propagate to the emitter before any mutation,
leaving the state unchanged, which is how the error branch is embedded. -/
def handleEvent (E : RegexEngine) (s : SessionState) (e : CDPEvent) :
    SessionState :=
  match e with
  | .scriptParsed params =>
      { s with scriptRegistry := s.scriptRegistry.addScript params }
  | .pausedEv reason callFrames hitBreakpoints =>
      { s with debugState := s.debugState.setPaused reason callFrames hitBreakpoints }
  | .resumedEv =>
      { s with debugState := s.debugState.setResumed }
  | .breakpointResolved breakpointId location =>
      { s with debugState :=
          s.debugState.updateBreakpointLocations breakpointId [location] }
  | .consoleAPICalled params =>
      { s with consoleState := (s.consoleState.onConsoleAPICalled params).2 }
  | .exceptionThrown timestamp details =>
      { s with consoleState := (s.consoleState.onExceptionThrown timestamp details).2 }
  | .requestWillBeSent params =>
      { s with networkState := s.networkState.onRequestWillBeSent params }
  | .responseReceived requestId response =>
      { s with networkState := s.networkState.onResponseReceived requestId response }
  | .loadingFinished requestId timestamp encodedDataLength =>
      { s with networkState :=
          s.networkState.onLoadingFinished requestId timestamp encodedDataLength }
  | .loadingFailed requestId timestamp errorText canceled =>
      { s with networkState :=
          s.networkState.onLoadingFailed requestId timestamp errorText canceled }
  | .fetchRequestPaused event now =>
      match s.fetchInterceptor.onRequestPaused E event now with
      | Except.ok (_, fi) => { s with fetchInterceptor := fi }
      | Except.error _ => s
  | .logEntryAdded entry =>
      let entries := s.logEntries ++ [entry]
      { s with logEntries := if entries.length > 1000 then entries.tail else entries }
  | .workerRegistrationUpdated registrations =>
      let upsert := fun (m : JSMap String SWRegistration) (reg : SWRegistration) =>
        if reg.isDeleted then JSMap.delete m reg.registrationId
        else JSMap.set m reg.registrationId reg
      { s with serviceWorkerRegistrations :=
          registrations.foldl upsert s.serviceWorkerRegistrations }
  | .workerVersionUpdated versions =>
      let upsert := fun (m : JSMap String SWVersion) (ver : SWVersion) =>
        JSMap.set m ver.versionId ver
      { s with serviceWorkerVersions :=
          versions.foldl upsert s.serviceWorkerVersions }
  | .documentUpdated =>
      { s with documentNodeId := none }

/-- evaluate, synchronous part: inspect DebugState first and throw the
PausedError carrying the pause reason before any transport activity; only
otherwise issue the Runtime.evaluate call on the transport (registering
the pending slot and writing the frame). The later race between the
outstanding call and a pause event happens after this function returns its
issued request id. -/
def evaluate (s : SessionState) (expression : String) :
    Except SessionError Nat × SessionState :=
  if s.debugState.isPaused then
    (Except.error (SessionError.pausedError s.debugState.getPauseState.reason), s)
  else
    match CDPClient.send s.client "Runtime.evaluate" (.evaluateP expression) with
    | Except.error _ => (Except.error SessionError.notConnected, s)
    | Except.ok (c, id) => (Except.ok id, { s with client := c })

/-- Options of the facade continueRequest. -/
structure ContinueOptions where
  url : Option String := none
  method : Option String := none
  postData : Option String := none
  headers : Option (List HeaderEntry) := none
deriving DecidableEq, Repr

/-- A string option included only when truthy (present and nonempty), as
the if tests on option fields behave in JavaScript. -/
def truthyString (o : Option String) : Option String :=
  match o with
  | some v => if strFalsy v then none else some v
  | none => none

/-- continueRequest: build params from the truthy options, send
Fetch.continueRequest, then remove the paused entry. -/
def continueRequest (s : SessionState) (requestId : String)
    (options : ContinueOptions) : Except SessionError SessionState :=
  let params := CDPParams.continueP requestId (truthyString options.url)
    (truthyString options.method) (truthyString options.postData)
    options.headers
  match CDPClient.send s.client "Fetch.continueRequest" params with
  | Except.error _ => Except.error SessionError.notConnected
  | Except.ok (c, _) =>
      Except.ok { s with
        client := c,
        fetchInterceptor := s.fetchInterceptor.removePausedRequest requestId }

/-- Options of the facade fulfillRequest. Its declared option record has
exactly these three fields; there is no pre-encoded-body field. -/
structure FulfillOptions where
  responseHeaders : Option (List HeaderEntry) := none
  body : Option String := none
  responsePhrase : Option String := none
deriving DecidableEq, Repr

/-- fulfillRequest: place the response headers when given, base64-encode a
truthy text body onto the wire (an absent or empty body puts no body
field in the params), send Fetch.fulfillRequest, then remove the paused
entry. -/
def fulfillRequest (s : SessionState) (requestId : String)
    (responseCode : Nat) (options : FulfillOptions) :
    Except SessionError SessionState :=
  let body :=
    match truthyString options.body with
    | some b => some (base64EncodeString b)
    | none => none
  let params := CDPParams.fulfillP requestId responseCode
    options.responseHeaders body (truthyString options.responsePhrase)
  match CDPClient.send s.client "Fetch.fulfillRequest" params with
  | Except.error _ => Except.error SessionError.notConnected
  | Except.ok (c, _) =>
      Except.ok { s with
        client := c,
        fetchInterceptor := s.fetchInterceptor.removePausedRequest requestId }

/-- failRequest: send Fetch.failRequest, then remove the paused entry. -/
def failRequest (s : SessionState) (requestId : String) (errorReason : String) :
    Except SessionError SessionState :=
  match CDPClient.send s.client "Fetch.failRequest"
      (.failP requestId errorReason) with
  | Except.error _ => Except.error SessionError.notConnected
  | Except.ok (c, _) =>
      Except.ok { s with
        client := c,
        fetchInterceptor := s.fetchInterceptor.removePausedRequest requestId }

/-- enableFetch: send Fetch.enable with the given patterns, or the
generated ones, or the catch-all; then mirror the flag. -/
def enableFetch (s : SessionState)
    (patterns : Option (List FetchInterceptor.CDPPattern)) :
    Except SessionError SessionState :=
  let actualPatterns := patterns.getD s.fetchInterceptor.getCDPPatterns
  let actualPatterns :=
    if actualPatterns.isEmpty then
      [{ urlPattern := "*", requestStage := "Request" }]
    else actualPatterns
  match CDPClient.send s.client "Fetch.enable" (.fetchEnableP actualPatterns) with
  | Except.error _ => Except.error SessionError.notConnected
  | Except.ok (c, _) =>
      Except.ok { s with
        client := c,
        fetchInterceptor := s.fetchInterceptor.setEnabled true }

/-- disableFetch: send Fetch.disable, then mirror the flag into the
interceptor, which clears the paused table. -/
def disableFetch (s : SessionState) : Except SessionError SessionState :=
  match CDPClient.send s.client "Fetch.disable" .noParams with
  | Except.error _ => Except.error SessionError.notConnected
  | Except.ok (c, _) =>
      Except.ok { s with
        client := c,
        fetchInterceptor := s.fetchInterceptor.setEnabled false }

end DebugSession

/-! ### Fetch tool handlers (tools/fetch.ts)

Each tool handler takes the session and its validated arguments and
returns a text result marked as success or error, together with the
session state it leaves behind. File contents are supplied to the
fulfill-with-file handler as the byte list that readFile produced. -/

/-- A tool result: a text payload, possibly marked as an error. -/
inductive ToolResult
  | success (text : String)
  | error (text : String)
deriving DecidableEq, Repr

/-- The extension table mapping to MIME types. -/
def mimeTypes : JSMap String String :=
  [ (".html", "text/html"), (".htm", "text/html"), (".css", "text/css"),
    (".js", "application/javascript"), (".mjs", "application/javascript"),
    (".json", "application/json"), (".xml", "application/xml"),
    (".txt", "text/plain"), (".csv", "text/csv"), (".svg", "image/svg+xml"),
    (".png", "image/png"), (".jpg", "image/jpeg"), (".jpeg", "image/jpeg"),
    (".gif", "image/gif"), (".webp", "image/webp"), (".ico", "image/x-icon"),
    (".woff", "font/woff"), (".woff2", "font/woff2"), (".ttf", "font/ttf"),
    (".otf", "font/otf"), (".eot", "application/vnd.ms-fontobject"),
    (".pdf", "application/pdf"), (".zip", "application/zip"),
    (".wasm", "application/wasm") ]

/-- The extension of a path: the final dot of the base name and what
follows it, as path.extname computes. -/
def extname (path : String) : String :=
  let base := ((path.splitOn "/").getLastD path)
  match (base.splitOn ".").length with
  | 0 => ""
  | 1 => ""
  | _ =>
      let tail := (base.splitOn ".").getLastD ""
      if base.startsWith "." && (base.splitOn ".").length == 2 then ""
      else "." ++ tail

/-- getMimeType: look the lowercased extension up, defaulting to the
octet-stream type. -/
def getMimeType (filePath : String) : String :=
  (JSMap.get? mimeTypes (extname filePath).toLower).getD "application/octet-stream"

namespace Tools

/-- Object.entries of a headers record, mapped to name-value pairs. -/
def headerEntriesOf (headers : JSMap String String) : List HeaderEntry :=
  headers.map (fun e => { name := e.1, value := e.2 })

/-- Arguments of the continue_request tool. -/
structure ContinueRequestArgs where
  requestId : String
  url : Option String := none
  method : Option String := none
  postData : Option String := none
  headers : Option (JSMap String String) := none
deriving DecidableEq, Repr

/-- The continue_request handler: an unknown paused id returns the
not-found error without touching the session; a known id is continued
through the facade. -/
def continueRequest (s : SessionState) (p : ContinueRequestArgs) :
    ToolResult × SessionState :=
  match s.fetchInterceptor.getPausedRequest p.requestId with
  | none => (ToolResult.error "Request not found in paused requests", s)
  | some _ =>
      let headers := p.headers.map headerEntriesOf
      match DebugSession.continueRequest s p.requestId
          { url := p.url, method := p.method, postData := p.postData,
            headers := headers } with
      | Except.error _ => (ToolResult.error "Not connected", s)
      | Except.ok s1 => (ToolResult.success "Request continued", s1)

/-- Arguments of the fulfill_request tool. -/
structure FulfillRequestArgs where
  requestId : String
  status : Nat
  statusText : Option String := none
  headers : Option (JSMap String String) := none
  body : Option String := none
deriving DecidableEq, Repr

/-- The fulfill_request handler: an unknown paused id returns the
not-found error without touching the session; a known id is fulfilled
through the facade with the text body. -/
def fulfillRequest (s : SessionState) (p : FulfillRequestArgs) :
    ToolResult × SessionState :=
  match s.fetchInterceptor.getPausedRequest p.requestId with
  | none => (ToolResult.error "Request not found in paused requests", s)
  | some _ =>
      let headers := p.headers.map headerEntriesOf
      match DebugSession.fulfillRequest s p.requestId p.status
          { responsePhrase := p.statusText, responseHeaders := headers,
            body := p.body } with
      | Except.error _ => (ToolResult.error "Not connected", s)
      | Except.ok s1 => (ToolResult.success "Request fulfilled with mock response", s1)

/-- Arguments of the fulfill_request_with_file tool; fileContent is the
byte list read from filePath. -/
structure FulfillWithFileArgs where
  requestId : String
  filePath : String
  fileContent : List Nat
  status : Option Nat := none
  statusText : Option String := none
  contentType : Option String := none
  headers : Option (JSMap String String) := none
deriving DecidableEq, Repr

/-- The fulfill_request_with_file handler. It base64-encodes the file
bytes, but hands them to the facade under a pre-encoded-body key that the
facade's declared fulfill options do not contain and its implementation
never reads, so no body field reaches the built CDP params; the embedding
realises that by building the options with an absent body, and keeps the
encoded string in a discarded binding. -/
def fulfillRequestWithFile (s : SessionState) (p : FulfillWithFileArgs) :
    ToolResult × SessionState :=
  match s.fetchInterceptor.getPausedRequest p.requestId with
  | none => (ToolResult.error "Request not found in paused requests", s)
  | some _ =>
      let contentType := p.contentType.getD (getMimeType p.filePath)
      let headerEntries : List HeaderEntry :=
        [ { name := "Content-Type", value := contentType },
          { name := "Content-Length",
            value := String.mk (natDecimal p.fileContent.length) } ] ++
        (p.headers.map headerEntriesOf).getD []
      let _bodyBase64 := String.mk (base64EncodeBytes p.fileContent)
      match DebugSession.fulfillRequest s p.requestId (p.status.getD 200)
          { responsePhrase := p.statusText,
            responseHeaders := some headerEntries, body := none } with
      | Except.error _ => (ToolResult.error "Not connected", s)
      | Except.ok s1 =>
          (ToolResult.success "Request fulfilled with file contents", s1)

/-- The fail_request handler: an unknown paused id returns the not-found
error without touching the session; a known id is failed through the
facade. -/
def failRequest (s : SessionState) (requestId errorReason : String) :
    ToolResult × SessionState :=
  match s.fetchInterceptor.getPausedRequest requestId with
  | none => (ToolResult.error "Request not found in paused requests", s)
  | some _ =>
      match DebugSession.failRequest s requestId errorReason with
      | Except.error _ => (ToolResult.error "Not connected", s)
      | Except.ok s1 => (ToolResult.success "Request failed", s1)

end Tools

/-! ### Concrete instances used by witnesses and counterexamples -/

/-- A concrete regex engine for witnesses: one source text, the single
opening parenthesis, fails to compile, as it does in every real engine;
every other source compiles to a matcher. -/
def testEngine : RegexEngine :=
  { compile := fun src => if src = "(" then none else some (fun _ => false) }

/-- A session that is paused at a breakpoint. -/
def sC1 : SessionState :=
  { debugState :=
      { pauseState :=
          { isPaused := true, reason := some "breakpoint",
            callFrames := some [{ callFrameId := "f0", functionName := "main" }] } } }

/-- The creation-time resolved location of the witness breakpoint. -/
def locC2a : Location := { scriptId := "s1", lineNumber := 10 }

/-- The location delivered by the witness resolution event. -/
def locC2b : Location := { scriptId := "s1", lineNumber := 12 }

/-- A session holding one breakpoint that already has a resolved location. -/
def sC2 : SessionState :=
  { debugState := DebugState.init.addBreakpoint
      { id := "bp1", url := some "test.js", lineNumber := 10,
        locations := [locC2a], enabled := true } }

/-- An interceptor holding one enabled rule. -/
def fiC8 : FetchInterceptor :=
  (FetchInterceptor.init.addRule { pattern := "*", action := .pause, enabled := true }).2

/-- A connected session with one rule and one paused request. -/
def sC10 : SessionState :=
  { client := { connected := true },
    fetchInterceptor :=
      { rules := [("rule-1",
          { id := "rule-1", pattern := "*", action := .pause, enabled := true })],
        pausedRequests := [("r1",
          { requestId := "r1", url := "http://x/", method := "GET",
            resourceType := "XHR", headers := [], timestamp := 0 })],
        enabled := true, ruleIdCounter := 1 } }

/-- The session sC10 after disableFetch: the Fetch.disable frame is on the
wire and the interceptor is disabled with an empty paused table. -/
def sC10res : SessionState :=
  { sC10 with
    client :=
      { requestId := 1, pendingRequests := [(1, "Fetch.disable")], connected := true,
        sentFrames := [{ id := 1, method := "Fetch.disable", params := CDPParams.noParams }] },
    fetchInterceptor :=
      { sC10.fetchInterceptor with enabled := false, pausedRequests := [] } }

/-- Whether an event is a breakpoint resolution. -/
def isBreakpointResolvedEvent : CDPEvent → Bool
  | .breakpointResolved _ _ => true
  | _ => false

/-- A connected session with two paused requests. -/
def sC7 : SessionState :=
  { client := { connected := true },
    fetchInterceptor :=
      { pausedRequests :=
          [("r1", { requestId := "r1", url := "http://x/a", method := "GET",
                    resourceType := "XHR", headers := [], timestamp := 0 }),
           ("r2", { requestId := "r2", url := "http://x/b", method := "POST",
                    resourceType := "Fetch", headers := [], timestamp := 1 })],
        enabled := true } }

/-- The paused request of the fulfill scenarios. -/
def pausedC9 : PausedRequest :=
  { requestId := "req1", url := "http://x/", method := "GET",
    resourceType := "XHR", headers := [], timestamp := 0 }

/-- A connected session with the paused request req1. -/
def sC9 : SessionState :=
  { client := { connected := true },
    fetchInterceptor := { pausedRequests := [("req1", pausedC9)], enabled := true } }

/-- Arguments of the fulfill-with-file scenario: a two-byte text file. -/
def argsC9 : Tools.FulfillWithFileArgs :=
  { requestId := "req1", filePath := "/tmp/mock.txt", fileContent := [104, 105],
    contentType := some "text/plain" }

/-! ### Operation traces over the FetchInterceptor (for the rule-id claim) -/

/-- The rule-management operations of one session. -/
inductive FIOp
  | add (rule : InterceptRuleInput)
  | remove (ruleId : String)
  | update (ruleId : String) (updates : InterceptRuleUpdates)
  | enable (ruleId : String) (enabled : Bool)
  | clearRules
  | reset
deriving DecidableEq, Repr

/-- Apply one operation, collecting the id returned by addRule. -/
def applyOp (s : FetchInterceptor) : FIOp → FetchInterceptor × List String
  | .add rule =>
      let (id, s1) := s.addRule rule
      (s1, [id])
  | .remove ruleId => ((s.removeRule ruleId).2, [])
  | .update ruleId updates => ((s.updateRule ruleId updates).2, [])
  | .enable ruleId enabled => ((s.enableRule ruleId enabled).2, [])
  | .clearRules => (s.clearRules, [])
  | .reset => (s.reset, [])

/-- Run a sequence of operations, collecting every id addRule returned. -/
def runOps (s : FetchInterceptor) : List FIOp → FetchInterceptor × List String
  | [] => (s, [])
  | op :: ops =>
      let (s1, ids1) := applyOp s op
      let (s2, ids2) := runOps s1 ops
      (s2, ids1 ++ ids2)

/-- The number of addRule operations in a trace. -/
def addCount (ops : List FIOp) : Nat :=
  ops.countP (fun op => match op with | .add _ => true | _ => false)

/-- A rule input used by the concrete traces. -/
def rC5 : InterceptRuleInput := { pattern := "*", action := .pause, enabled := true }

/-- A concrete trace without reset: add, remove the first rule, add again. -/
def opsC5 : List FIOp := [FIOp.add rC5, FIOp.remove "rule-1", FIOp.add rC5]

/-! ### Network event traces (for the bounded-eviction claim) -/

/-- The record that onRequestWillBeSent creates for one event. -/
def rwbsRecord (p : RequestWillBeSentParams) : CollectedRequest :=
  { requestId := p.requestId, url := p.request.url, method := p.request.method,
    resourceType := p.type, startTime := p.timestamp, request := p.request }

/-- Process a sequence of requestWillBeSent events. -/
def processRwbs (s : NetworkState) (evs : List RequestWillBeSentParams) :
    NetworkState :=
  evs.foldl NetworkState.onRequestWillBeSent s

/-- The request table holding exactly the records of the given events, in
order. -/
def rwbsEntries (ws : List RequestWillBeSentParams) :
    JSMap String CollectedRequest :=
  ws.map (fun p => (p.requestId, rwbsRecord p))

/-- The last n elements of a list. -/
def suffixN {α : Type} (n : Nat) (l : List α) : List α :=
  l.drop (l.length - n)

/-- A requestWillBeSent event with the given id and timestamp offset. -/
def evC4 (id : String) (i : Nat) : RequestWillBeSentParams :=
  { requestId := id, loaderId := "loader1", documentURL := "http://example.com",
    request := { url := "http://example.com/api", method := "GET" },
    timestamp := 1000 + i, wallTime := 0, type := "XHR" }

/-- Ten events req0 through req9, as in the bounded-eviction scenario. -/
def evsC4 : List RequestWillBeSentParams :=
  [evC4 "req0" 0, evC4 "req1" 1, evC4 "req2" 2, evC4 "req3" 3, evC4 "req4" 4,
   evC4 "req5" 5, evC4 "req6" 6, evC4 "req7" 7, evC4 "req8" 8, evC4 "req9" 9]

/-! ### Key multiplicity (for the transport claim) -/

namespace JSMap

/-- The number of entries a table holds under a key. -/
def keyCount {κ α : Type} [BEq κ] (m : JSMap κ α) (k : κ) : Nat :=
  (m.filter (fun e => e.1 == k)).length

end JSMap

/-- A fresh connected transport. -/
def cC6 : ClientState := { connected := true }

/-- The transport cC6 after one send of Debugger.pause. -/
def cC6after : ClientState :=
  { requestId := 1, pendingRequests := [(1, "Debugger.pause")], connected := true,
    sentFrames := [{ id := 1, method := "Debugger.pause", params := CDPParams.noParams }] }

/-! ### Map lemmas used by the claim proofs -/

namespace JSMap

variable {κ α : Type} [BEq κ] [LawfulBEq κ]

theorem get?_eq_none_of_not_mem_keys {m : JSMap κ α} {k : κ}
    (h : k ∉ keysList m) : get? m k = none := by
  induction m with
  | nil => rfl
  | cons e t ih =>
      simp only [keysList, List.map_cons, List.mem_cons, not_or] at h
      have hk : (e.1 == k) = false := by
        simp only [beq_eq_false_iff_ne]
        exact fun hc => h.1 hc.symm
      simp only [get?, hk, if_false, Bool.false_eq_true]
      exact ih (by simpa [keysList] using h.2)

theorem get?_eq_none_iff {m : JSMap κ α} {k : κ} :
    get? m k = none ↔ k ∉ keysList m := by
  constructor
  · intro h hmem
    induction m with
    | nil => simp [keysList] at hmem
    | cons e t ih =>
        simp only [keysList, List.map_cons, List.mem_cons] at hmem
        by_cases hk : e.1 == k
        · simp [get?, hk] at h
        · simp only [get?, hk, Bool.false_eq_true, if_false] at h
          rcases hmem with h1 | h2
          · exact hk (by simp [h1])
          · exact ih h (by simpa [keysList] using h2)
  · exact get?_eq_none_of_not_mem_keys

theorem set_eq_append_of_get?_none {m : JSMap κ α} {k : κ} (v : α)
    (h : get? m k = none) : set m k v = m ++ [(k, v)] := by
  simp [set, h]

theorem get?_append_single_self {m : JSMap κ α} {k : κ} (v : α)
    (h : get? m k = none) : get? (m ++ [(k, v)]) k = some v := by
  induction m with
  | nil => simp [get?]
  | cons e t ih =>
      by_cases hk : e.1 == k
      · simp [get?, hk] at h
      · simp only [get?, hk, Bool.false_eq_true, if_false] at h
        simpa [get?, hk] using ih h

theorem get?_append_single_ne {m : JSMap κ α} {k k' : κ} (v : α)
    (h : k' ≠ k) : get? (m ++ [(k, v)]) k' = get? m k' := by
  have hkk : (k == k') = false := by
    simp only [beq_eq_false_iff_ne]
    exact fun hc => h hc.symm
  induction m with
  | nil => simp [get?, hkk]
  | cons e t ih =>
      by_cases hk : e.1 == k'
      · simp [get?, hk]
      · simpa [get?, hk] using ih

theorem get?_mapReplace_self {m : JSMap κ α} {k : κ} {w : α} (v : α)
    (h : get? m k = some w) :
    get? (m.map (fun e => if e.1 == k then (e.1, v) else e)) k = some v := by
  induction m with
  | nil => simp [get?] at h
  | cons e t ih =>
      by_cases hk : e.1 == k
      · simp [get?, hk]
      · simp only [get?, hk, Bool.false_eq_true, if_false] at h
        simpa [get?, hk] using ih h

theorem get?_set_self (m : JSMap κ α) (k : κ) (v : α) :
    get? (set m k v) k = some v := by
  rcases h : get? m k with _ | w
  · rw [set_eq_append_of_get?_none v h]
    exact get?_append_single_self v h
  · have hs : (get? m k).isSome = true := by simp [h]
    simp only [set, hs, if_pos]
    exact get?_mapReplace_self v h

theorem get?_mapReplace_ne {m : JSMap κ α} {k k' : κ} (v : α)
    (h : k' ≠ k) :
    get? (m.map (fun e => if e.1 == k then (e.1, v) else e)) k' = get? m k' := by
  induction m with
  | nil => rfl
  | cons e t ih =>
      by_cases he : e.1 == k
      · have hne : (e.1 == k') = false := by
          rw [eq_of_beq he]
          simp only [beq_eq_false_iff_ne]
          exact fun hc => h hc.symm
        simpa [get?, he, hne] using ih
      · by_cases hk : e.1 == k'
        · simp [get?, he, hk]
        · simpa [get?, he, hk] using ih

theorem get?_set_ne (m : JSMap κ α) {k k' : κ} (v : α) (h : k' ≠ k) :
    get? (set m k v) k' = get? m k' := by
  by_cases hs : (get? m k).isSome
  · simp only [set, hs, if_pos]
    exact get?_mapReplace_ne v h
  · simp only [set, hs, Bool.false_eq_true, if_false]
    exact get?_append_single_ne v h

theorem get?_delete_ne (m : JSMap κ α) {k k' : κ} (h : k' ≠ k) :
    get? (delete m k) k' = get? m k' := by
  induction m with
  | nil => rfl
  | cons e t ih =>
      by_cases he : e.1 == k
      · have hne : (e.1 == k') = false := by
          rw [eq_of_beq he]
          simp only [beq_eq_false_iff_ne]
          exact fun hc => h hc.symm
        simp [delete, he, get?, hne]
      · by_cases hk : e.1 == k'
        · simp [delete, he, get?, hk]
        · simpa [delete, he, get?, hk] using ih

theorem get?_delete_self_of_nodup {m : JSMap κ α} {k : κ}
    (h : (keysList m).Nodup) : get? (delete m k) k = none := by
  induction m with
  | nil => rfl
  | cons e t ih =>
      simp only [keysList, List.map_cons, List.nodup_cons] at h
      by_cases he : e.1 == k
      · simp only [delete, he, if_pos]
        apply get?_eq_none_of_not_mem_keys
        rw [← eq_of_beq he]
        exact fun hc => h.1 (by simpa [keysList] using hc)
      · simp only [delete, he, Bool.false_eq_true, if_false, get?]
        exact ih h.2

theorem keysList_append (m m' : JSMap κ α) :
    keysList (m ++ m') = keysList m ++ keysList m' := by
  simp [keysList]

theorem values_append (m m' : JSMap κ α) :
    values (m ++ m') = values m ++ values m' := by
  simp [values]

end JSMap

/-! ### C1: evaluate while paused fails without any transport activity -/

/-- C1: every call to the facade evaluate while DebugState is paused fails
immediately with the paused error carrying the pause reason, and the
transport is untouched: no frame is written, and the pending-request table
and the request-id counter are unchanged. -/
theorem C1_evaluate_while_paused (s : SessionState) (expression : String)
    (h : s.debugState.isPaused = true) :
    (DebugSession.evaluate s expression).1 =
      Except.error (SessionError.pausedError s.debugState.pauseState.reason) ∧
    (DebugSession.evaluate s expression).2.client.sentFrames = s.client.sentFrames ∧
    (DebugSession.evaluate s expression).2.client.pendingRequests =
      s.client.pendingRequests ∧
    (DebugSession.evaluate s expression).2.client.requestId = s.client.requestId := by
  simp only [DebugState.isPaused] at h
  simp [DebugSession.evaluate, DebugState.isPaused, DebugState.getPauseState, h]

/-- Witness for C1 at a concrete paused session. -/
theorem C1_evaluate_while_paused_witness :
    sC1.debugState.isPaused = true ∧
    ((DebugSession.evaluate sC1 "1+2").1 =
      Except.error (SessionError.pausedError sC1.debugState.pauseState.reason) ∧
     (DebugSession.evaluate sC1 "1+2").2.client.sentFrames = sC1.client.sentFrames ∧
     (DebugSession.evaluate sC1 "1+2").2.client.pendingRequests =
       sC1.client.pendingRequests ∧
     (DebugSession.evaluate sC1 "1+2").2.client.requestId = sC1.client.requestId) :=
  ⟨rfl, C1_evaluate_while_paused sC1 "1+2" rfl⟩

/-! ### C2: breakpointResolved replaces the stored locations -/

/-- C2 counterexample: in the concrete session sC2 the breakpoint bp1 was
created with the resolved location locC2a; handling one breakpointResolved
event for bp1 carrying locC2b leaves the breakpoint with the location list
consisting of locC2b alone, and the creation-time location locC2a is gone,
contradicting the claim that the event appends and the list keeps all
prior locations. -/
theorem C2_counterexample :
    (((DebugSession.handleEvent testEngine sC2
        (CDPEvent.breakpointResolved "bp1" locC2b)).debugState.getBreakpoint
        "bp1").map ManagedBreakpoint.locations = some [locC2b]) ∧
    locC2a ∉ ((((DebugSession.handleEvent testEngine sC2
        (CDPEvent.breakpointResolved "bp1" locC2b)).debugState.getBreakpoint
        "bp1").map ManagedBreakpoint.locations).getD []) := by
  constructor
  · decide
  · decide

/-- C2 amended: handling a Debugger.breakpointResolved event replaces the
named breakpoint's resolved-location list with the one-element list
holding the event's location (so after k resolved events the list holds
only the last delivered location), leaves every other breakpoint
untouched, and no other event kind mutates any ManagedBreakpoint. -/
theorem C2_resolved_replaces_locations (E : RegexEngine) (s : SessionState)
    (id : String) (loc : Location) (e : CDPEvent) :
    ((DebugSession.handleEvent E s (CDPEvent.breakpointResolved id loc)).debugState.getBreakpoint
        id =
      (s.debugState.getBreakpoint id).map (fun bp => { bp with locations := [loc] })) ∧
    (∀ id2, id2 ≠ id →
      (DebugSession.handleEvent E s (CDPEvent.breakpointResolved id loc)).debugState.getBreakpoint
          id2 =
        s.debugState.getBreakpoint id2) ∧
    (isBreakpointResolvedEvent e = false →
      (DebugSession.handleEvent E s e).debugState.breakpoints =
        s.debugState.breakpoints) := by
  refine ⟨?_, ?_, ?_⟩
  · rcases h : JSMap.get? s.debugState.breakpoints id with _ | bp
    · simp [DebugSession.handleEvent, DebugState.updateBreakpointLocations,
        DebugState.getBreakpoint, h]
    · simp [DebugSession.handleEvent, DebugState.updateBreakpointLocations,
        DebugState.getBreakpoint, h, JSMap.get?_set_self]
  · intro id2 hne
    rcases h : JSMap.get? s.debugState.breakpoints id with _ | bp
    · simp [DebugSession.handleEvent, DebugState.updateBreakpointLocations,
        DebugState.getBreakpoint, h]
    · simp [DebugSession.handleEvent, DebugState.updateBreakpointLocations,
        DebugState.getBreakpoint, h, JSMap.get?_set_ne _ _ hne]
  · intro hb
    cases e with
    | breakpointResolved id2 loc2 => simp [isBreakpointResolvedEvent] at hb
    | fetchRequestPaused event now =>
        simp only [DebugSession.handleEvent]
        rcases hE : s.fetchInterceptor.onRequestPaused E event now with _ | p
        · simp [hE]
        · simp [hE]
    | _ => simp [DebugSession.handleEvent, DebugState.setPaused, DebugState.setResumed]

/-- Witness for C2 at the concrete session sC2. -/
theorem C2_resolved_replaces_locations_witness :
    ((DebugSession.handleEvent testEngine sC2
        (CDPEvent.breakpointResolved "bp1" locC2b)).debugState.getBreakpoint "bp1" =
      (sC2.debugState.getBreakpoint "bp1").map
        (fun bp => { bp with locations := [locC2b] })) ∧
    ((DebugSession.handleEvent testEngine sC2
        (CDPEvent.breakpointResolved "bp1" locC2b)).debugState.getBreakpoint "other" =
      sC2.debugState.getBreakpoint "other") ∧
    ((DebugSession.handleEvent testEngine sC2 CDPEvent.resumedEv).debugState.breakpoints =
      sC2.debugState.breakpoints) := by
  obtain ⟨h1, h2, h3⟩ :=
    C2_resolved_replaces_locations testEngine sC2 "bp1" locC2b CDPEvent.resumedEv
  exact ⟨h1, h2 "other" (by decide), h3 rfl⟩

/-! ### C3: invalid regex patterns -/

/-- C3 counterexample: on the engine testEngine, whose compile fails on the
inner text of the pattern slash-parenthesis-slash, the ScriptRegistry and
NetworkState pattern operations propagate the compile exception instead of
matching nothing, while only the FetchInterceptor operation returns false. -/
theorem C3_counterexample :
    ScriptRegistry.matchesUrl testEngine "http://example.com" "/(/" =
      Except.error "SyntaxError" ∧
    ScriptRegistry.findScriptsByUrlPattern testEngine ScriptRegistry.init "/(/" =
      Except.error "SyntaxError" ∧
    NetworkState.getRequestsByUrl testEngine NetworkState.init "/(/" =
      Except.error "SyntaxError" ∧
    FetchInterceptor.matchesPattern testEngine "http://example.com" "/(/" =
      Except.ok false := by
  refine ⟨rfl, rfl, rfl, rfl⟩

/-- C3 amended: for every engine, URL and slash-wrapped pattern whose inner
text fails to compile, FetchInterceptor.matchesPattern returns false
without throwing, while ScriptRegistry.matchesUrl,
ScriptRegistry.findScriptsByUrlPattern and NetworkState.getRequestsByUrl
propagate the compile exception. -/
theorem C3_invalid_regex_behaviour (E : RegexEngine) (url pattern : String)
    (sr : ScriptRegistry) (ns : NetworkState)
    (hslash : slashWrapped pattern = true)
    (hstar : pattern ≠ "*")
    (hcompile : E.compile (slashInner pattern) = none) :
    FetchInterceptor.matchesPattern E url pattern = Except.ok false ∧
    ScriptRegistry.matchesUrl E url pattern = Except.error "SyntaxError" ∧
    ScriptRegistry.findScriptsByUrlPattern E sr pattern =
      Except.error "SyntaxError" ∧
    NetworkState.getRequestsByUrl E ns pattern = Except.error "SyntaxError" := by
  refine ⟨?_, ?_, ?_, ?_⟩ <;>
    simp [FetchInterceptor.matchesPattern, ScriptRegistry.matchesUrl,
      ScriptRegistry.findScriptsByUrlPattern, ScriptRegistry.patternToRegex,
      NetworkState.getRequestsByUrl, NetworkState.patternToRegex,
      hslash, hstar, hcompile, Bind.bind, Except.bind]

/-- Witness for C3 at the engine testEngine and the concrete invalid
pattern. -/
theorem C3_invalid_regex_behaviour_witness :
    (slashWrapped "/(/" = true ∧ "/(/" ≠ "*" ∧
      testEngine.compile (slashInner "/(/") = none) ∧
    (FetchInterceptor.matchesPattern testEngine "http://example.com" "/(/" =
      Except.ok false ∧
     ScriptRegistry.matchesUrl testEngine "http://example.com" "/(/" =
       Except.error "SyntaxError" ∧
     ScriptRegistry.findScriptsByUrlPattern testEngine ScriptRegistry.init "/(/" =
       Except.error "SyntaxError" ∧
     NetworkState.getRequestsByUrl testEngine NetworkState.init "/(/" =
       Except.error "SyntaxError") :=
  ⟨⟨by decide, by decide, rfl⟩,
   C3_invalid_regex_behaviour testEngine "http://example.com" "/(/"
     ScriptRegistry.init NetworkState.init (by decide) (by decide) rfl⟩

/-! ### C10: disableFetch empties the paused table and nothing else -/

/-- C10: setEnabled false on the interceptor (as the facade disableFetch
performs) empties the paused-request table while leaving the rule map and
the rule-id counter unchanged; the facade mirrors exactly that state into
the session. -/
theorem C10_disableFetch_frame (fi : FetchInterceptor) (s s' : SessionState)
    (h : DebugSession.disableFetch s = Except.ok s') :
    (fi.setEnabled false).pausedRequests = [] ∧
    (fi.setEnabled false).rules = fi.rules ∧
    (fi.setEnabled false).ruleIdCounter = fi.ruleIdCounter ∧
    s'.fetchInterceptor = s.fetchInterceptor.setEnabled false := by
  refine ⟨rfl, rfl, rfl, ?_⟩
  unfold DebugSession.disableFetch CDPClient.send at h
  by_cases hc : s.client.connected
  · simp only [hc, Bool.not_true, Bool.false_eq_true, if_false] at h
    injection h with h
    rw [← h]
  · simp [hc] at h

/-- Witness for C10 at the concrete connected session sC10. -/
theorem C10_disableFetch_frame_witness :
    DebugSession.disableFetch sC10 = Except.ok sC10res ∧
    ((sC10.fetchInterceptor.setEnabled false).pausedRequests = [] ∧
     (sC10.fetchInterceptor.setEnabled false).rules = sC10.fetchInterceptor.rules ∧
     (sC10.fetchInterceptor.setEnabled false).ruleIdCounter =
       sC10.fetchInterceptor.ruleIdCounter ∧
     sC10res.fetchInterceptor = sC10.fetchInterceptor.setEnabled false) :=
  ⟨rfl, C10_disableFetch_frame sC10.fetchInterceptor sC10 sC10res rfl⟩

/-! ### C8: disabling a projection and its query results -/

/-- C8 counterexample: the interceptor fiC8 holds one enabled rule; after
setEnabled false its rule queries are not empty and its rule counts are
not zero, contradicting the claim that every query of every projection is
empty with zero counts after disabling. -/
theorem C8_counterexample :
    (fiC8.setEnabled false).getAllRules ≠ [] ∧
    (fiC8.setEnabled false).getSummary.ruleCount = 1 ∧
    (fiC8.setEnabled false).getSummary.enabledRules = 1 := by
  refine ⟨by decide, by decide, by decide⟩

/-- C8 amended: after setEnabled false, DebugState reports running with no
breakpoints and no frames, NetworkState and ConsoleState report empty
results and zero counts, and the FetchInterceptor empties only its
paused-request side: its paused queries and count are zero while its rule
map, rule list and rule counts are unchanged (ScriptRegistry has no
enabled flag at all). -/
theorem C8_setEnabled_false_results (ds : DebugState) (ns : NetworkState)
    (cs : ConsoleState) (fi : FetchInterceptor) :
    (ds.setEnabled false).isPaused = false ∧
    (ds.setEnabled false).getAllBreakpoints = [] ∧
    (ds.setEnabled false).getCallFrames = [] ∧
    (ns.setEnabled false).getAllRequests = [] ∧
    (ns.setEnabled false).getCount = 0 ∧
    (ns.setEnabled false).getSummary = { total := 0, completed := 0, failed := 0, pending := 0 } ∧
    (cs.setEnabled false).getMessages = [] ∧
    (cs.setEnabled false).getMessageCount = 0 ∧
    (cs.setEnabled false).getExceptions = [] ∧
    (cs.setEnabled false).getExceptionCount = 0 ∧
    (fi.setEnabled false).getAllPausedRequests = [] ∧
    (fi.setEnabled false).getSummary.pausedRequests = 0 ∧
    (fi.setEnabled false).getAllRules = fi.getAllRules ∧
    (fi.setEnabled false).getSummary.ruleCount = fi.getSummary.ruleCount ∧
    (fi.setEnabled false).getSummary.enabledRules = fi.getSummary.enabledRules :=
  ⟨rfl, rfl, rfl, rfl, rfl, rfl, rfl, rfl, rfl, rfl, rfl, rfl, rfl, rfl, rfl⟩

/-! ### C7: paused-request dispatch -/

/-- C7: on a requestId present in the paused table, each of the three
dispatch tools removes that entry; on an absent requestId each returns
the paused-request-not-found error with the session state, transport
included, returned untouched. -/
theorem C7_paused_dispatch (s : SessionState) (rid : String)
    (hconn : s.client.connected = true)
    (hnodup : (JSMap.keysList s.fetchInterceptor.pausedRequests).Nodup) :
    (∀ (p : Tools.ContinueRequestArgs), p.requestId = rid →
      s.fetchInterceptor.getPausedRequest rid ≠ none →
      (Tools.continueRequest s p).2.fetchInterceptor.getPausedRequest rid = none) ∧
    (∀ (p : Tools.FulfillRequestArgs), p.requestId = rid →
      s.fetchInterceptor.getPausedRequest rid ≠ none →
      (Tools.fulfillRequest s p).2.fetchInterceptor.getPausedRequest rid = none) ∧
    (∀ (reason : String),
      s.fetchInterceptor.getPausedRequest rid ≠ none →
      (Tools.failRequest s rid reason).2.fetchInterceptor.getPausedRequest rid = none) ∧
    (s.fetchInterceptor.getPausedRequest rid = none →
      ∀ (p : Tools.ContinueRequestArgs), p.requestId = rid →
        Tools.continueRequest s p =
          (ToolResult.error "Request not found in paused requests", s)) ∧
    (s.fetchInterceptor.getPausedRequest rid = none →
      ∀ (p : Tools.FulfillRequestArgs), p.requestId = rid →
        Tools.fulfillRequest s p =
          (ToolResult.error "Request not found in paused requests", s)) ∧
    (s.fetchInterceptor.getPausedRequest rid = none →
      ∀ (reason : String),
        Tools.failRequest s rid reason =
          (ToolResult.error "Request not found in paused requests", s)) := by
  refine ⟨?_, ?_, ?_, ?_, ?_, ?_⟩
  · intro p hpid hsome
    subst hpid
    rcases hg : s.fetchInterceptor.getPausedRequest p.requestId with _ | r
    · exact absurd hg hsome
    · simp only [FetchInterceptor.getPausedRequest] at hg
      simp [Tools.continueRequest, hg, DebugSession.continueRequest,
        CDPClient.send, hconn, FetchInterceptor.removePausedRequest,
        FetchInterceptor.getPausedRequest]
      exact JSMap.get?_delete_self_of_nodup hnodup
  · intro p hpid hsome
    subst hpid
    rcases hg : s.fetchInterceptor.getPausedRequest p.requestId with _ | r
    · exact absurd hg hsome
    · simp only [FetchInterceptor.getPausedRequest] at hg
      simp [Tools.fulfillRequest, hg, DebugSession.fulfillRequest,
        CDPClient.send, hconn, FetchInterceptor.removePausedRequest,
        FetchInterceptor.getPausedRequest]
      exact JSMap.get?_delete_self_of_nodup hnodup
  · intro reason hsome
    rcases hg : s.fetchInterceptor.getPausedRequest rid with _ | r
    · exact absurd hg hsome
    · simp only [FetchInterceptor.getPausedRequest] at hg
      simp [Tools.failRequest, hg, DebugSession.failRequest,
        CDPClient.send, hconn, FetchInterceptor.removePausedRequest,
        FetchInterceptor.getPausedRequest]
      exact JSMap.get?_delete_self_of_nodup hnodup
  · intro hnone p hpid
    subst hpid
    simp only [FetchInterceptor.getPausedRequest] at hnone
    simp [Tools.continueRequest, FetchInterceptor.getPausedRequest, hnone]
  · intro hnone p hpid
    subst hpid
    simp only [FetchInterceptor.getPausedRequest] at hnone
    simp [Tools.fulfillRequest, FetchInterceptor.getPausedRequest, hnone]
  · intro hnone reason
    simp only [FetchInterceptor.getPausedRequest] at hnone
    simp [Tools.failRequest, FetchInterceptor.getPausedRequest, hnone]

/-- Witness for C7 at the concrete session sC7, applying the theorem to a
known id and to an unknown one. -/
theorem C7_paused_dispatch_witness :
    (sC7.client.connected = true ∧
      (JSMap.keysList sC7.fetchInterceptor.pausedRequests).Nodup) ∧
    ((Tools.continueRequest sC7
        { requestId := "r1" }).2.fetchInterceptor.getPausedRequest "r1" = none) ∧
    ((Tools.fulfillRequest sC7
        { requestId := "r1", status := 200 }).2.fetchInterceptor.getPausedRequest "r1" =
      none) ∧
    ((Tools.failRequest sC7 "r1" "Failed").2.fetchInterceptor.getPausedRequest "r1" =
      none) ∧
    (Tools.continueRequest sC7 { requestId := "nope" } =
      (ToolResult.error "Request not found in paused requests", sC7)) ∧
    (Tools.fulfillRequest sC7 { requestId := "nope", status := 200 } =
      (ToolResult.error "Request not found in paused requests", sC7)) ∧
    (Tools.failRequest sC7 "nope" "Failed" =
      (ToolResult.error "Request not found in paused requests", sC7)) := by
  obtain ⟨h1, h2, h3, _, _, _⟩ := C7_paused_dispatch sC7 "r1" rfl (by decide)
  obtain ⟨_, _, _, h4, h5, h6⟩ := C7_paused_dispatch sC7 "nope" rfl (by decide)
  exact ⟨⟨rfl, by decide⟩,
    h1 { requestId := "r1" } rfl (by decide),
    h2 { requestId := "r1", status := 200 } rfl (by decide),
    h3 "Failed" (by decide),
    h4 (by decide) { requestId := "nope" } rfl,
    h5 (by decide) { requestId := "nope", status := 200 } rfl,
    h6 (by decide) "Failed"⟩

/-! ### C9: fulfill body encoding -/

/-- C9: at the concrete paused request req1, fulfilling with the text body
hi places its base64 encoding on the wire; but the fulfill-with-file tool,
although it base64-encodes its two file bytes to the same string, produces
a Fetch.fulfillRequest frame whose params carry no body at all, because
the facade's fulfill options have no pre-encoded-body field and the value
is dropped — the pre-encoded body is not passed through. -/
theorem C9_fulfill_body_encoding :
    ((DebugSession.fulfillRequest sC9 "req1" 200 { body := some "hi" }).map
        (fun s1 => s1.client.sentFrames.map SentFrame.params)) =
      Except.ok [CDPParams.fulfillP "req1" 200 none (some "aGk=") none] ∧
    String.mk (base64EncodeBytes argsC9.fileContent) = "aGk=" ∧
    (Tools.fulfillRequestWithFile sC9 argsC9).1 =
      ToolResult.success "Request fulfilled with file contents" ∧
    (Tools.fulfillRequestWithFile sC9 argsC9).2.client.sentFrames.map
        SentFrame.params =
      [CDPParams.fulfillP "req1" 200
        (some [{ name := "Content-Type", value := "text/plain" },
               { name := "Content-Length", value := "2" }]) none none] := by
  refine ⟨rfl, rfl, rfl, rfl⟩

/-! ### C5: rule-id uniqueness -/

/-- The fuelled digit extraction agrees with the mathematical digit list
whenever the fuel covers the number. -/
theorem natDecimalAux_eq_digits :
    ∀ (fuel n : Nat), n ≤ fuel →
      natDecimalAux fuel n = ((Nat.digits 10 n).map Nat.digitChar).reverse := by
  intro fuel
  induction fuel with
  | zero =>
      intro n h
      have : n = 0 := Nat.le_zero.mp h
      subst this
      simp [natDecimalAux]
  | succ fuel ih =>
      intro n h
      by_cases hn : n = 0
      · subst hn
        simp [natDecimalAux]
      · have hpos : 0 < n := Nat.pos_of_ne_zero hn
        have hdiv : n / 10 ≤ fuel := by
          have : n / 10 < n := Nat.div_lt_self hpos (by norm_num)
          omega
        rw [natDecimalAux, if_neg hn, ih _ hdiv,
          Nat.digits_def' (by norm_num : 1 < 10) hpos]
        simp

/-- Digit characters are injective below the base. -/
theorem digitChar_inj_lt :
    ∀ a < 10, ∀ b < 10, Nat.digitChar a = Nat.digitChar b → a = b := by decide

/-- Mapping digitChar over digit lists bounded by the base is injective. -/
theorem map_digitChar_inj :
    ∀ (l1 l2 : List Nat), (∀ x ∈ l1, x < 10) → (∀ x ∈ l2, x < 10) →
      l1.map Nat.digitChar = l2.map Nat.digitChar → l1 = l2 := by
  intro l1
  induction l1 with
  | nil =>
      intro l2 _ _ h
      cases l2 with
      | nil => rfl
      | cons b t => simp at h
  | cons a t ih =>
      intro l2 h1 h2 h
      cases l2 with
      | nil => simp at h
      | cons b t2 =>
          simp only [List.map_cons, List.cons.injEq] at h
          have hab : a = b :=
            digitChar_inj_lt a (h1 a (by simp)) b (h2 b (by simp)) h.1
          subst hab
          rw [ih t2 (fun x hx => h1 x (by simp [hx]))
            (fun x hx => h2 x (by simp [hx])) h.2]

/-- The decimal rendering is injective on positive numbers. -/
theorem natDecimal_inj_pos {m n : Nat} (hm : 0 < m) (hn : 0 < n)
    (h : natDecimal m = natDecimal n) : m = n := by
  unfold natDecimal at h
  rw [if_neg (Nat.pos_iff_ne_zero.mp hm), if_neg (Nat.pos_iff_ne_zero.mp hn),
    natDecimalAux_eq_digits m m le_rfl, natDecimalAux_eq_digits n n le_rfl] at h
  have h2 := List.reverse_injective h
  have h3 := map_digitChar_inj _ _
    (fun x hx => Nat.digits_lt_base (by norm_num) hx)
    (fun x hx => Nat.digits_lt_base (by norm_num) hx) h2
  exact Nat.digits.injective 10 h3

/-- Rule-id strings are injective on positive counter values. -/
theorem mkRuleId_inj_pos {m n : Nat} (hm : 0 < m) (hn : 0 < n)
    (h : FetchInterceptor.mkRuleId m = FetchInterceptor.mkRuleId n) : m = n := by
  unfold FetchInterceptor.mkRuleId at h
  have h2 : "rule-".data ++ natDecimal m = "rule-".data ++ natDecimal n :=
    congrArg String.data h
  exact natDecimal_inj_pos hm hn (List.append_cancel_left h2)

/-- addCount of a trace headed by an add. -/
theorem addCount_cons_add (r : InterceptRuleInput) (ops : List FIOp) :
    addCount (FIOp.add r :: ops) = addCount ops + 1 := by
  simp [addCount, List.countP_cons]

/-- addCount of a trace headed by a non-add operation. -/
theorem addCount_cons_other (op : FIOp) (ops : List FIOp)
    (h : (match op with | FIOp.add _ => true | _ => false) = false) :
    addCount (op :: ops) = addCount ops := by
  simp [addCount, List.countP_cons, h]

/-- In a trace without reset, the collected ids are exactly the decimal
rule ids of the successive counter values, and the final counter has
advanced by the number of adds. -/
theorem runOps_ids :
    ∀ (ops : List FIOp) (s : FetchInterceptor), FIOp.reset ∉ ops →
      (runOps s ops).2 = (List.range (addCount ops)).map
        (fun i => FetchInterceptor.mkRuleId (s.ruleIdCounter + i + 1)) ∧
      (runOps s ops).1.ruleIdCounter = s.ruleIdCounter + addCount ops := by
  intro ops
  induction ops with
  | nil => intro s _; simp [runOps, addCount]
  | cons op ops ih =>
      intro s hmem
      have hop : FIOp.reset ∉ ops := fun hc => hmem (List.mem_cons_of_mem _ hc)
      cases op with
      | add r =>
          obtain ⟨h1, h2⟩ := ih (s.addRule r).2 hop
          have hcnt : (s.addRule r).2.ruleIdCounter = s.ruleIdCounter + 1 := rfl
          rw [hcnt] at h1 h2
          constructor
          · rw [show (runOps s (FIOp.add r :: ops)).2 =
                FetchInterceptor.mkRuleId (s.ruleIdCounter + 1) ::
                  (runOps (s.addRule r).2 ops).2 from rfl,
              h1, addCount_cons_add, List.range_succ_eq_map, List.map_cons,
              List.map_map]
            refine List.cons_eq_cons.mpr ⟨?_, ?_⟩
            · congr 1
            · apply List.map_congr_left
              intro i _
              simp only [Function.comp_apply]
              congr 1
              omega
          · rw [show (runOps s (FIOp.add r :: ops)).1 =
                (runOps (s.addRule r).2 ops).1 from rfl,
              h2, addCount_cons_add]
            omega
      | remove rid =>
          obtain ⟨h1, h2⟩ := ih (s.removeRule rid).2 hop
          have hcnt : (s.removeRule rid).2.ruleIdCounter = s.ruleIdCounter := rfl
          rw [hcnt] at h1 h2
          have hac : addCount (FIOp.remove rid :: ops) = addCount ops :=
            addCount_cons_other _ _ rfl
          refine ⟨?_, ?_⟩
          · rw [show (runOps s (FIOp.remove rid :: ops)).2 =
                (runOps (s.removeRule rid).2 ops).2 from rfl, h1, hac]
          · rw [show (runOps s (FIOp.remove rid :: ops)).1 =
                (runOps (s.removeRule rid).2 ops).1 from rfl, h2, hac]
      | update rid u =>
          obtain ⟨h1, h2⟩ := ih (s.updateRule rid u).2 hop
          have hcnt : (s.updateRule rid u).2.ruleIdCounter = s.ruleIdCounter := by
            unfold FetchInterceptor.updateRule
            rcases JSMap.get? s.rules rid with _ | rule <;> rfl
          rw [hcnt] at h1 h2
          have hac : addCount (FIOp.update rid u :: ops) = addCount ops :=
            addCount_cons_other _ _ rfl
          refine ⟨?_, ?_⟩
          · rw [show (runOps s (FIOp.update rid u :: ops)).2 =
                (runOps (s.updateRule rid u).2 ops).2 from rfl, h1, hac]
          · rw [show (runOps s (FIOp.update rid u :: ops)).1 =
                (runOps (s.updateRule rid u).2 ops).1 from rfl, h2, hac]
      | enable rid b =>
          obtain ⟨h1, h2⟩ := ih (s.enableRule rid b).2 hop
          have hcnt : (s.enableRule rid b).2.ruleIdCounter = s.ruleIdCounter := by
            unfold FetchInterceptor.enableRule
            rcases JSMap.get? s.rules rid with _ | rule <;> rfl
          rw [hcnt] at h1 h2
          have hac : addCount (FIOp.enable rid b :: ops) = addCount ops :=
            addCount_cons_other _ _ rfl
          refine ⟨?_, ?_⟩
          · rw [show (runOps s (FIOp.enable rid b :: ops)).2 =
                (runOps (s.enableRule rid b).2 ops).2 from rfl, h1, hac]
          · rw [show (runOps s (FIOp.enable rid b :: ops)).1 =
                (runOps (s.enableRule rid b).2 ops).1 from rfl, h2, hac]
      | clearRules =>
          obtain ⟨h1, h2⟩ := ih s.clearRules hop
          have hcnt : s.clearRules.ruleIdCounter = s.ruleIdCounter := rfl
          rw [hcnt] at h1 h2
          have hac : addCount (FIOp.clearRules :: ops) = addCount ops :=
            addCount_cons_other _ _ rfl
          refine ⟨?_, ?_⟩
          · rw [show (runOps s (FIOp.clearRules :: ops)).2 =
                (runOps s.clearRules ops).2 from rfl, h1, hac]
          · rw [show (runOps s (FIOp.clearRules :: ops)).1 =
                (runOps s.clearRules ops).1 from rfl, h2, hac]
      | reset => exact absurd (List.mem_cons_self _ _) hmem

/-- C5: within one session, every id addRule returns in a trace free of
reset is distinct from every other; and after a reset the counter starts
over, so ids repeat, as the concrete trace add-reset-add shows by
returning rule-1 twice. -/
theorem C5_rule_ids_unique (s : FetchInterceptor) (ops : List FIOp)
    (h : FIOp.reset ∉ ops) :
    (runOps s ops).2.Nodup ∧
    (runOps FetchInterceptor.init [FIOp.add rC5, FIOp.reset, FIOp.add rC5]).2 =
      ["rule-1", "rule-1"] := by
  constructor
  · obtain ⟨h1, _⟩ := runOps_ids ops s h
    rw [h1]
    apply List.Nodup.map_on _ (List.nodup_range _)
    intro i _ j _ hij
    have := mkRuleId_inj_pos (by omega) (by omega) hij
    omega
  · decide

/-- Witness for C5 at the concrete reset-free trace opsC5. -/
theorem C5_rule_ids_unique_witness :
    FIOp.reset ∉ opsC5 ∧
    ((runOps FetchInterceptor.init opsC5).2.Nodup ∧
     (runOps FetchInterceptor.init [FIOp.add rC5, FIOp.reset, FIOp.add rC5]).2 =
       ["rule-1", "rule-1"]) :=
  ⟨by decide, C5_rule_ids_unique FetchInterceptor.init opsC5 (by decide)⟩

/-! ### C4: bounded eviction in NetworkState -/

/-- Nonempty strings are truthy. -/
theorem strFalsy_eq_false {s : String} (h : s ≠ "") : strFalsy s = false := by
  cases s with
  | mk l =>
      cases l with
      | nil => exact absurd rfl h
      | cons c cs => rfl

/-- The keys of the event table are the event ids. -/
theorem keysList_rwbsEntries (ws : List RequestWillBeSentParams) :
    JSMap.keysList (rwbsEntries ws) = ws.map (fun p => p.requestId) := by
  simp [JSMap.keysList, rwbsEntries]

/-- Taking the last n elements ignores a head beyond them. -/
theorem suffixN_cons_of_le {α : Type} (x : α) (l : List α) {n : Nat}
    (h : n ≤ l.length) : suffixN n (x :: l) = suffixN n l := by
  unfold suffixN
  simp only [List.length_cons]
  rw [show l.length + 1 - n = (l.length - n) + 1 from by omega,
    List.drop_succ_cons]

/-- Taking at least as many elements as the list has keeps it whole. -/
theorem suffixN_eq_self_of_le {α : Type} {l : List α} {n : Nat}
    (h : l.length ≤ n) : suffixN n l = l := by
  unfold suffixN
  rw [Nat.sub_eq_zero_of_le h, List.drop_zero]

/-- Invariant of request processing: starting from a table holding the
records of ws (at most maxRequests many, for a positive bound, distinct
truthy ids), processing further events leaves exactly the records of the
last maxRequests events. -/
theorem processRwbs_inv (m : Nat) (hm : 1 ≤ m) (en : Bool) :
    ∀ (evs ws : List RequestWillBeSentParams),
      ((ws ++ evs).map (fun p => p.requestId)).Nodup →
      (∀ p ∈ ws ++ evs, p.requestId ≠ "") →
      ws.length ≤ m →
      processRwbs ⟨rwbsEntries ws, en, m⟩ evs =
        ⟨rwbsEntries (suffixN m (ws ++ evs)), en, m⟩ := by
  intro evs
  induction evs with
  | nil =>
      intro ws hnd hne hlen
      rw [show processRwbs ⟨rwbsEntries ws, en, m⟩ [] =
        ⟨rwbsEntries ws, en, m⟩ from rfl]
      rw [List.append_nil, suffixN_eq_self_of_le hlen]
  | cons e evs ih =>
      intro ws hnd hne hlen
      have hstep : processRwbs ⟨rwbsEntries ws, en, m⟩ (e :: evs) =
          processRwbs (NetworkState.onRequestWillBeSent ⟨rwbsEntries ws, en, m⟩ e)
            evs := rfl
      have hmemfresh : e.requestId ∉ ws.map (fun p => p.requestId) := by
        rw [List.map_append] at hnd
        have hdisj := (List.nodup_append.mp hnd).2.2
        intro hc
        exact hdisj hc (by simp)
      have hfresh : JSMap.get? (rwbsEntries ws) e.requestId = none := by
        apply JSMap.get?_eq_none_of_not_mem_keys
        rw [keysList_rwbsEntries]
        exact hmemfresh
      by_cases hlt : ws.length < m
      · -- below capacity: no eviction, plain append
        have hcond : ¬ (JSMap.size (rwbsEntries ws) ≥ m) := by
          simp only [JSMap.size, rwbsEntries, List.length_map]
          omega
        have hs1 : NetworkState.onRequestWillBeSent ⟨rwbsEntries ws, en, m⟩ e =
            ⟨rwbsEntries (ws ++ [e]), en, m⟩ := by
          simp only [NetworkState.onRequestWillBeSent]
          rw [if_neg hcond, JSMap.set_eq_append_of_get?_none _ hfresh]
          simp [rwbsEntries, rwbsRecord]
        rw [hstep, hs1]
        have := ih (ws ++ [e])
          (by rw [List.append_assoc, List.singleton_append]; exact hnd)
          (by rw [List.append_assoc, List.singleton_append]; exact hne)
          (by simp; omega)
        rw [this, List.append_assoc, List.singleton_append]
      · -- at capacity: evict the insertion-oldest entry, then append
        have hws : ws.length = m := by omega
        cases ws with
        | nil => simp at hws; omega
        | cons w wt =>
            have hw : w.requestId ≠ "" := hne w (by simp)
            have hcond : JSMap.size (rwbsEntries (w :: wt)) ≥ m := by
              simp only [JSMap.size, rwbsEntries, List.length_map]
              omega
            have hfk : JSMap.firstKey (rwbsEntries (w :: wt)) =
                some w.requestId := rfl
            have hdel : JSMap.delete (rwbsEntries (w :: wt)) w.requestId =
                rwbsEntries wt := by
              simp [rwbsEntries, JSMap.delete]
            have hfresh2 : JSMap.get? (rwbsEntries wt) e.requestId = none := by
              apply JSMap.get?_eq_none_of_not_mem_keys
              rw [keysList_rwbsEntries]
              intro hc
              exact hmemfresh (by simp [hc])
            have hs1 : NetworkState.onRequestWillBeSent
                ⟨rwbsEntries (w :: wt), en, m⟩ e =
                ⟨rwbsEntries (wt ++ [e]), en, m⟩ := by
              simp only [NetworkState.onRequestWillBeSent]
              rw [if_pos hcond]
              simp only [hfk, strFalsy_eq_false hw, Bool.false_eq_true, if_false,
                hdel]
              rw [JSMap.set_eq_append_of_get?_none _ hfresh2]
              simp [rwbsEntries, rwbsRecord]
            rw [hstep, hs1]
            have hnd2 : (((wt ++ [e]) ++ evs).map (fun p => p.requestId)).Nodup := by
              rw [List.append_assoc, List.singleton_append]
              have : ((w :: (wt ++ e :: evs)).map (fun p => p.requestId)).Nodup := by
                simpa using hnd
              exact (List.nodup_cons.mp this).2
            have hne2 : ∀ p ∈ (wt ++ [e]) ++ evs, p.requestId ≠ "" := by
              intro p hp
              apply hne
              rw [List.append_assoc, List.singleton_append] at hp
              rcases List.mem_append.mp hp with h1 | h2
              · exact List.mem_append.mpr (Or.inl (by simp [h1]))
              · exact List.mem_append.mpr (Or.inr h2)
            have hlen2 : (wt ++ [e]).length ≤ m := by
              simp at hws ⊢
              omega
            rw [ih (wt ++ [e]) hnd2 hne2 hlen2]
            rw [List.append_assoc, List.singleton_append]
            rw [show (w :: wt) ++ e :: evs = w :: (wt ++ e :: evs) from rfl]
            rw [suffixN_cons_of_le]
            simp at hws ⊢
            omega

/-- C4 counterexample: with maxRequests set to 0 a single event leaves a
table of size 1, not 0; and with maxRequests 1, an event whose requestId
is the empty string is never evicted, because the code guards the delete
with a truthiness test that the empty-string key fails, so a second event
leaves 2 records instead of 1. -/
theorem C4_counterexample :
    (processRwbs (NetworkState.init.setMaxRequests 0) [evC4 "req0" 0]).getCount = 1 ∧
    (processRwbs (NetworkState.init.setMaxRequests 0) [evC4 "req0" 0]).getCount ≠ 0 ∧
    (processRwbs (NetworkState.init.setMaxRequests 1)
      [evC4 "" 0, evC4 "b" 1]).getCount = 2 ∧
    (processRwbs (NetworkState.init.setMaxRequests 1)
      [evC4 "" 0, evC4 "b" 1]).getCount ≠ 1 := by
  refine ⟨by decide, by decide, by decide, by decide⟩

/-- C4 amended: for a positive maxRequests bound and events with distinct
nonempty requestIds, processing N events with N exceeding the bound leaves
exactly maxRequests records: the records of the most recent maxRequests
events, in insertion order. -/
theorem C4_bounded_eviction (m : Nat) (hm : 1 ≤ m)
    (evs : List RequestWillBeSentParams)
    (hnd : (evs.map (fun p => p.requestId)).Nodup)
    (hne : ∀ p ∈ evs, p.requestId ≠ "")
    (hlen : m < evs.length) :
    (processRwbs (NetworkState.init.setMaxRequests m) evs).getCount = m ∧
    (processRwbs (NetworkState.init.setMaxRequests m) evs).getAllRequests =
      (evs.drop (evs.length - m)).map rwbsRecord := by
  have h0 : NetworkState.init.setMaxRequests m =
      (⟨rwbsEntries [], false, m⟩ : NetworkState) := rfl
  have hinv := processRwbs_inv m hm false evs [] (by simpa using hnd)
    (by simpa using hne) (by simp)
  rw [h0, hinv]
  constructor
  · simp only [NetworkState.getCount, JSMap.size, rwbsEntries, List.length_map,
      suffixN, List.nil_append, List.length_drop]
    omega
  · simp only [NetworkState.getAllRequests, JSMap.values, rwbsEntries,
      List.map_map, suffixN, List.nil_append]
    rfl

/-- Witness for C4 at the ten-event scenario with the bound 5: the ids
req5 through req9 survive, in order. -/
theorem C4_bounded_eviction_witness :
    (1 ≤ 5 ∧ (evsC4.map (fun p => p.requestId)).Nodup ∧
      (∀ p ∈ evsC4, p.requestId ≠ "") ∧ 5 < evsC4.length) ∧
    ((processRwbs (NetworkState.init.setMaxRequests 5) evsC4).getCount = 5 ∧
     (processRwbs (NetworkState.init.setMaxRequests 5) evsC4).getAllRequests =
       (evsC4.drop (evsC4.length - 5)).map rwbsRecord) ∧
    (processRwbs (NetworkState.init.setMaxRequests 5) evsC4).getAllRequests.map
        (fun r => r.requestId) =
      ["req5", "req6", "req7", "req8", "req9"] := by
  refine ⟨⟨by decide, by decide, by decide, by decide⟩, ?_, by decide⟩
  exact C4_bounded_eviction 5 (by decide) evsC4 (by decide) (by decide) (by decide)

/-! ### C6: a pending slot is freed exactly once -/

namespace JSMap

variable {κ α : Type} [BEq κ] [LawfulBEq κ]

theorem keyCount_eq_zero_of_get?_none {m : JSMap κ α} {k : κ}
    (h : get? m k = none) : keyCount m k = 0 := by
  induction m with
  | nil => rfl
  | cons e t ih =>
      by_cases hk : e.1 == k
      · simp [get?, hk] at h
      · simp only [get?, hk, Bool.false_eq_true, if_false] at h
        simpa [keyCount, List.filter, hk] using ih h

theorem keyCount_delete_of_mem {m : JSMap κ α} {k : κ}
    (h : get? m k ≠ none) : keyCount (delete m k) k + 1 = keyCount m k := by
  induction m with
  | nil => simp [get?] at h
  | cons e t ih =>
      by_cases hk : e.1 == k
      · simp [delete, hk, keyCount, List.filter]
      · simp only [get?, hk, Bool.false_eq_true, if_false] at h
        simpa [delete, hk, keyCount, List.filter] using ih h

theorem keyCount_delete_ne (m : JSMap κ α) (k k2 : κ) (h : k ≠ k2) :
    keyCount (delete m k2) k = keyCount m k := by
  induction m with
  | nil => rfl
  | cons e t ih =>
      by_cases hk : e.1 == k2
      · have : (e.1 == k) = false := by
          rw [eq_of_beq hk]
          simp only [beq_eq_false_iff_ne]
          exact fun hc => h hc.symm
        simp [delete, hk, keyCount, List.filter, this]
      · by_cases hk2 : e.1 == k
        · simpa [delete, hk, keyCount, List.filter, hk2] using ih
        · simpa [delete, hk, keyCount, List.filter, hk2] using ih

theorem keyCount_append_single_self (m : JSMap κ α) (k : κ) (v : α) :
    keyCount (m ++ [(k, v)]) k = keyCount m k + 1 := by
  simp [keyCount, List.filter_append, List.filter]

theorem keyCount_eq_keys_filter (m : JSMap κ α) (k : κ) :
    keyCount m k = ((keysList m).filter (fun x => x == k)).length := by
  induction m with
  | nil => rfl
  | cons e t ih =>
      by_cases hk : e.1 == k
      · simpa [keyCount, keysList, List.filter, hk] using ih
      · simpa [keyCount, keysList, List.filter, hk] using ih

end JSMap

namespace CDPClient

theorem outcomesFor_append (id : Nat) (l1 l2 : List (Nat × Outcome)) :
    outcomesFor id (l1 ++ l2) = outcomesFor id l1 ++ outcomesFor id l2 := by
  simp [outcomesFor, List.filter_append]

theorem outcomesFor_keys_map (id : Nat) (o : Outcome) (ks : List Nat) :
    (outcomesFor id (ks.map (fun i => (i, o)))).length =
      (ks.filter (fun x => x == id)).length := by
  induction ks with
  | nil => rfl
  | cons i ks ih =>
      by_cases hi : i == id
      · simpa [outcomesFor, List.filter, hi] using ih
      · simpa [outcomesFor, List.filter, hi] using ih

theorem step_conservation (c : ClientState) (e : TransportEvent) (id : Nat) :
    JSMap.keyCount (step c e).1.pendingRequests id +
        (outcomesFor id (step c e).2).length =
      JSMap.keyCount c.pendingRequests id := by
  cases e with
  | inboundResponse i b =>
      rcases hg : JSMap.get? c.pendingRequests i with _ | v
      · have hstep : step c (TransportEvent.inboundResponse i b) = (c, []) := by
          simp [step, handleResponse, hg]
        rw [hstep]
        simp [outcomesFor]
      · have hstep : step c (TransportEvent.inboundResponse i b) =
            ({ c with pendingRequests := JSMap.delete c.pendingRequests i },
             [(i, if b then Outcome.protocolError else Outcome.response)]) := by
          simp [step, handleResponse, hg]
        rw [hstep]
        by_cases hi : i = id
        · subst hi
          have h1 := JSMap.keyCount_delete_of_mem (m := c.pendingRequests)
            (k := i) (by simp [hg])
          simp only [outcomesFor, List.filter, beq_self_eq_true, List.map_cons,
            List.map_nil, List.length_cons, List.length_nil]
          omega
        · have h1 := JSMap.keyCount_delete_ne c.pendingRequests id i
            (fun hc => hi hc.symm)
          have hne : (i == id) = false := by
            simp only [beq_eq_false_iff_ne]
            exact hi
          simp [outcomesFor, List.filter, hne, h1]
  | timerFire i =>
      rcases hg : JSMap.get? c.pendingRequests i with _ | v
      · have hstep : step c (TransportEvent.timerFire i) = (c, []) := by
          simp [step, timerFired, hg]
        rw [hstep]
        simp [outcomesFor]
      · have hstep : step c (TransportEvent.timerFire i) =
            ({ c with pendingRequests := JSMap.delete c.pendingRequests i },
             [(i, Outcome.timeout)]) := by
          simp [step, timerFired, hg]
        rw [hstep]
        by_cases hi : i = id
        · subst hi
          have h1 := JSMap.keyCount_delete_of_mem (m := c.pendingRequests)
            (k := i) (by simp [hg])
          simp only [outcomesFor, List.filter, beq_self_eq_true, List.map_cons,
            List.map_nil, List.length_cons, List.length_nil]
          omega
        · have h1 := JSMap.keyCount_delete_ne c.pendingRequests id i
            (fun hc => hi hc.symm)
          have hne : (i == id) = false := by
            simp only [beq_eq_false_iff_ne]
            exact hi
          simp [outcomesFor, List.filter, hne, h1]
  | disconnect =>
      simp only [step, onClose]
      rw [show JSMap.keyCount ([] : JSMap Nat String) id = 0 from rfl]
      rw [outcomesFor_keys_map, ← JSMap.keyCount_eq_keys_filter]
      omega

theorem run_conservation (id : Nat) :
    ∀ (es : List TransportEvent) (c : ClientState),
      JSMap.keyCount (run c es).1.pendingRequests id +
          (outcomesFor id (run c es).2).length =
        JSMap.keyCount c.pendingRequests id := by
  intro es
  induction es with
  | nil => intro c; simp [run, outcomesFor]
  | cons e es ih =>
      intro c
      have hr : run c (e :: es) =
          ((run (step c e).1 es).1, (step c e).2 ++ (run (step c e).1 es).2) := rfl
      rw [hr]
      simp only [outcomesFor_append, List.length_append]
      have h1 := step_conservation c e id
      have h2 := ih (step c e).1
      omega

theorem step_keyCount_of_not_relevant {id : Nat} {e : TransportEvent}
    (h : relevantTo id e = false) (c : ClientState) :
    JSMap.keyCount (step c e).1.pendingRequests id =
      JSMap.keyCount c.pendingRequests id := by
  cases e with
  | inboundResponse i b =>
      simp only [relevantTo] at h
      have hi : i ≠ id := by simpa using h
      simp only [step, handleResponse]
      rcases hg : JSMap.get? c.pendingRequests i with _ | v
      · rfl
      · exact JSMap.keyCount_delete_ne _ _ _ (fun hc => hi hc.symm)
  | timerFire i =>
      simp only [relevantTo] at h
      have hi : i ≠ id := by simpa using h
      simp only [step, timerFired]
      rcases hg : JSMap.get? c.pendingRequests i with _ | v
      · rfl
      · exact JSMap.keyCount_delete_ne _ _ _ (fun hc => hi hc.symm)
  | disconnect => simp [relevantTo] at h

theorem step_keyCount_zero_of_relevant {id : Nat} {e : TransportEvent}
    (h : relevantTo id e = true) (c : ClientState)
    (hle : JSMap.keyCount c.pendingRequests id ≤ 1) :
    JSMap.keyCount (step c e).1.pendingRequests id = 0 := by
  cases e with
  | inboundResponse i b =>
      simp only [relevantTo] at h
      have hi : i = id := by simpa using h
      subst hi
      rcases hg : JSMap.get? c.pendingRequests i with _ | v
      · have hstep : step c (TransportEvent.inboundResponse i b) = (c, []) := by
          simp [step, handleResponse, hg]
        rw [hstep]
        exact JSMap.keyCount_eq_zero_of_get?_none hg
      · have hstep : step c (TransportEvent.inboundResponse i b) =
            ({ c with pendingRequests := JSMap.delete c.pendingRequests i },
             [(i, if b then Outcome.protocolError else Outcome.response)]) := by
          simp [step, handleResponse, hg]
        rw [hstep]
        have h1 := JSMap.keyCount_delete_of_mem (m := c.pendingRequests)
          (k := i) (by simp [hg])
        simp only []
        omega
  | timerFire i =>
      simp only [relevantTo] at h
      have hi : i = id := by simpa using h
      subst hi
      rcases hg : JSMap.get? c.pendingRequests i with _ | v
      · have hstep : step c (TransportEvent.timerFire i) = (c, []) := by
          simp [step, timerFired, hg]
        rw [hstep]
        exact JSMap.keyCount_eq_zero_of_get?_none hg
      · have hstep : step c (TransportEvent.timerFire i) =
            ({ c with pendingRequests := JSMap.delete c.pendingRequests i },
             [(i, Outcome.timeout)]) := by
          simp [step, timerFired, hg]
        rw [hstep]
        have h1 := JSMap.keyCount_delete_of_mem (m := c.pendingRequests)
          (k := i) (by simp [hg])
        simp only []
        omega
  | disconnect => rfl

theorem run_keyCount_le (id : Nat) (es : List TransportEvent) (c : ClientState) :
    JSMap.keyCount (run c es).1.pendingRequests id ≤
      JSMap.keyCount c.pendingRequests id := by
  have := run_conservation id es c
  omega

theorem run_relevant_zero (id : Nat) :
    ∀ (es : List TransportEvent) (c : ClientState),
      JSMap.keyCount c.pendingRequests id ≤ 1 →
      es.any (relevantTo id) = true →
      JSMap.keyCount (run c es).1.pendingRequests id = 0 := by
  intro es
  induction es with
  | nil => intro c _ h; simp at h
  | cons e es ih =>
      intro c hle hany
      have hr : (run c (e :: es)).1 = (run (step c e).1 es).1 := rfl
      rw [hr]
      by_cases hrel : relevantTo id e
      · have h0 := step_keyCount_zero_of_relevant hrel c hle
        have := run_keyCount_le id es (step c e).1
        omega
      · have hrel' : relevantTo id e = false := by simpa using hrel
        have hany' : es.any (relevantTo id) = true := by
          simp only [List.any_cons, hrel', Bool.false_or] at hany
          exact hany
        have hpres := step_keyCount_of_not_relevant hrel' c
        exact ih (step c e).1 (by omega) hany'

end CDPClient

/-- C6: after a successful send on a transport whose pending keys do not
exceed the id counter, the new pending slot is settled at most once over
any interleaving of inbound responses, timer firings and disconnects;
exactly once as soon as the interleaving contains an event that can settle
it; and a response arriving for an id with no pending slot is dropped
without any effect on the state. -/
theorem C6_slot_freed_exactly_once (c : ClientState) (method : String)
    (params : CDPParams) (c1 : ClientState) (id : Nat)
    (hkeys : ∀ k ∈ JSMap.keysList c.pendingRequests, k ≤ c.requestId)
    (hsend : CDPClient.send c method params = Except.ok (c1, id))
    (es : List TransportEvent) :
    (CDPClient.outcomesFor id (CDPClient.run c1 es).2).length ≤ 1 ∧
    (es.any (CDPClient.relevantTo id) = true →
      (CDPClient.outcomesFor id (CDPClient.run c1 es).2).length = 1) ∧
    (∀ (c2 : ClientState) (b : Bool),
      JSMap.get? c2.pendingRequests id = none →
      CDPClient.step c2 (TransportEvent.inboundResponse id b) = (c2, [])) := by
  unfold CDPClient.send at hsend
  by_cases hc : c.connected
  · simp only [hc, Bool.not_true, Bool.false_eq_true, if_false] at hsend
    rw [Except.ok.injEq, Prod.mk.injEq] at hsend
    obtain ⟨hc1, hid⟩ := hsend
    subst hid
    have hfresh : JSMap.get? c.pendingRequests (c.requestId + 1) = none := by
      apply JSMap.get?_eq_none_of_not_mem_keys
      intro hmem
      have := hkeys _ hmem
      omega
    have hkc1 : JSMap.keyCount c1.pendingRequests (c.requestId + 1) = 1 := by
      rw [← hc1]
      show JSMap.keyCount
        (JSMap.set c.pendingRequests (c.requestId + 1) method)
        (c.requestId + 1) = 1
      rw [JSMap.set_eq_append_of_get?_none _ hfresh,
        JSMap.keyCount_append_single_self,
        JSMap.keyCount_eq_zero_of_get?_none hfresh]
    have hcons := CDPClient.run_conservation (c.requestId + 1) es c1
    refine ⟨by omega, ?_, ?_⟩
    · intro hany
      have hz := CDPClient.run_relevant_zero (c.requestId + 1) es c1
        (by omega) hany
      omega
    · intro c2 b h
      simp [CDPClient.step, CDPClient.handleResponse, h]
  · simp [hc] at hsend

/-- Witness for C6 at a fresh connected transport: one send, then a
response for its id settles it exactly once, and a duplicate response
would be dropped. -/
theorem C6_slot_freed_exactly_once_witness :
    (∀ k ∈ JSMap.keysList cC6.pendingRequests, k ≤ cC6.requestId) ∧
    CDPClient.send cC6 "Debugger.pause" CDPParams.noParams =
      Except.ok (cC6after, 1) ∧
    ((CDPClient.outcomesFor 1
        (CDPClient.run cC6after [TransportEvent.inboundResponse 1 false]).2).length ≤ 1 ∧
     (CDPClient.outcomesFor 1
        (CDPClient.run cC6after [TransportEvent.inboundResponse 1 false]).2).length = 1 ∧
     CDPClient.step cC6 (TransportEvent.inboundResponse 1 false) = (cC6, [])) := by
  obtain ⟨h1, h2, h3⟩ := C6_slot_freed_exactly_once cC6 "Debugger.pause"
    CDPParams.noParams cC6after 1 (by decide) rfl
    [TransportEvent.inboundResponse 1 false]
  exact ⟨by decide, rfl, h1, h2 (by decide), h3 cC6 false rfl⟩
